import Mathlib

/-!
CDTV serial transmitter (`cdtv.cpp`): shallow embedding.

The timer-compare interrupt routine of `cdtv.cpp` drives one shared line (PRDT)
with three kinds of frames: the CDTV infra-red full frame, the infra-red repeat
frame and the CD-1253 mouse frame.  The C globals, the function-local statics of
the interrupt routine and the few hardware registers the code writes are
collected in one record `State`; every C function becomes a function on it.

Machine integers are `Nat` / `Int` with explicit truncation:
`uint8_t`, `uint16_t`, `uint32_t` values are `Nat` reduced modulo `2^8`, `2^16`,
`2^32` where the C code stores them, `int16_t` values are `Int` wrapped into
`[-32768, 32767]` where the C code stores them.
-/

namespace Cdtv

/-! ## Machine integers -/

/-- Conversion of an integer value to `uint8_t` (value modulo 256). -/
def u8 (v : Int) : Nat := (v % 256).toNat

/-- Wrap of an integer value into the `int16_t` range. -/
def i16 (v : Int) : Int := (v + 32768) % 65536 - 32768

/-! ## The shared line -/

/-- Level of the PRDT pin: `weak_pullup` leaves it released (input, pulled high),
`pull_down` drives it low. -/
inductive Line where
  | released
  | low
  deriving DecidableEq, Repr

/-! ## `enum transmitstates` -/

def tx_idle : Nat := 0
def ir_start : Nat := 1
def ir_transmit : Nat := 2
def ir_end_pulse : Nat := ir_transmit + 48
def ir_stop : Nat := 51
def ir_repeat : Nat := 52
def ir_repeat_end_pulse : Nat := 53
def ir_repeat_stop : Nat := 54
def ir_repeat_stop2 : Nat := 55
def m_start : Nat := 56
def m_transmit : Nat := 57
def m_stop : Nat := m_transmit + 38
def m_stop2 : Nat := 96

/-! ## Program state -/

/-- Globals, interrupt-routine statics and written hardware registers. -/
structure State where
  /-- `static volatile int16_t mouse_x` -/
  mouse_x : Int
  /-- `static volatile int16_t mouse_y` -/
  mouse_y : Int
  /-- `static volatile uint8_t mouse_buttons` -/
  mouse_buttons : Nat
  /-- `static uint16_t joy_state` of the timer routine -/
  joy_state : Nat
  /-- `static uint8_t tx_state` of the timer routine -/
  tx_state : Nat
  /-- `static uint32_t mouse` of the timer routine -/
  mouse : Nat
  /-- level of `PRDTPIN` -/
  line : Line
  /-- compare register of timer 1 -/
  OCR1A : Nat
  /-- counter register of timer 1, as last written by the program -/
  TCNT1 : Nat
  /-- bit `CS11` of `TCCR1B`: the timer runs iff it is set -/
  CS11 : Bool
  deriving DecidableEq, Repr

/-- A programmed segment: the line level and the compare value that holds it. -/
abbrev Segment := Line × Nat

/-- State after `cdtv_init`, the statics holding their initial zeros. -/
def cdtv_init : State :=
  { mouse_x := 0, mouse_y := 0, mouse_buttons := 0,
    joy_state := 0, tx_state := 0, mouse := 0,
    line := Line.released, OCR1A := 0x20, TCNT1 := 0, CS11 := false }

/-- Pin-change interrupt: `TCCR1B |= (1 << CS11)`. -/
def PCINT1_vect (s : State) : State := { s with CS11 := true }

/-- The six sampled inputs, `joy_s = (~PINC & 0x3F)`, for the port value `pinc`. -/
def joy_s (pinc : Nat) : Nat := ((pinc % 256) ^^^ 0xFF) &&& 0x3F

/-- `joystick_get_state`: `joy_s ? (0x800UL | (joy_s<<2)) : 0` as `uint16_t`. -/
def joystick_get_state (pinc : Nat) : Nat :=
  if joy_s pinc ≠ 0 then (0x800 ||| (joy_s pinc <<< 2)) % 65536 else 0

/-- `mouse_set_state(buttons, x, y)`: leaky integration of both counters, the
buttons or-ed into the mask, the timer enabled.  On `Int`, `>>> 1` is the
arithmetic shift, the floor of the half (`shr_one`), as `>> 1` on `int16_t`. -/
def mouse_set_state (buttons : Nat) (x y : Int) (s : State) : State :=
  { s with
    mouse_x := i16 (s.mouse_x - (s.mouse_x >>> 1) + x)
    mouse_y := i16 (s.mouse_y - (s.mouse_y >>> 1) + y)
    mouse_buttons := (s.mouse_buttons ||| buttons) % 256
    CS11 := true }

/-- `mouse_get_state(&ms)`: returns `(rv, *ms, state after the reset)`. -/
def mouse_get_state (s : State) : Nat × Nat × State :=
  let mx : Nat := u8 (-s.mouse_x)
  let my : Nat := u8 (-s.mouse_y)
  let rv : Nat := if s.mouse_buttons ≠ 0 ∨ mx ≠ 0 ∨ my ≠ 0 then 1 else 0
  let ms : Nat :=
    ((((s.mouse_buttons ^^^ 0x7) % 2 ^ 32) <<< 16) % 2 ^ 32) ||| ((mx % 65536) <<< 8) ||| my
  (rv, ms, { s with mouse_x := 0, mouse_y := 0, mouse_buttons := 0 })

/-- `ISR(TIMER1_COMPA_vect)`; `pinc` is the value of `PINC` at the time of the
interrupt (only the idle branch reads it). -/
def TIMER1_COMPA_vect (pinc : Nat) (s : State) : State :=
  if s.tx_state = tx_idle then
    let new_joy_state := joystick_get_state pinc
    if new_joy_state ≠ 0 ∨ s.joy_state ≠ 0 then
      { s with
        tx_state := if new_joy_state = s.joy_state then ir_repeat else ir_start
        joy_state := new_joy_state
        line := Line.low
        OCR1A := 18000
        TCNT1 := 0 }
    else
      let r := mouse_get_state s
      let s1 : State := { r.2.2 with mouse := r.2.1 }
      if r.1 ≠ 0 then
        { s1 with tx_state := m_start, line := Line.low, OCR1A := 2200, TCNT1 := 0 }
      else
        { s1 with CS11 := false }
  else if s.tx_state < m_start then
    if s.tx_state = ir_start then
      { s with line := Line.released, OCR1A := 9000, tx_state := (s.tx_state + 1) % 256 }
    else if s.tx_state < ir_end_pulse then
      let ss := (s.tx_state - ir_transmit) % 256
      if ss &&& 0x1 = 0 then
        { s with line := Line.low, OCR1A := 800, tx_state := (s.tx_state + 1) % 256 }
      else
        let ss1 := ss >>> 1
        let ss2 := if ss1 ≥ 12 then ss1 - 12 else ss1
        let ss3 := (11 - ss2) % 256
        let ocr :=
          if s.tx_state > ir_transmit + 24 then
            (if (s.joy_state >>> ss3) &&& 0x1 ≠ 0 then 800 else 2400)
          else
            (if (s.joy_state >>> ss3) &&& 0x1 ≠ 0 then 2400 else 800)
        { s with line := Line.released, OCR1A := ocr, tx_state := (s.tx_state + 1) % 256 }
    else if s.tx_state = ir_end_pulse then
      { s with line := Line.low, OCR1A := 800, tx_state := (s.tx_state + 1) % 256 }
    else if s.tx_state = ir_stop then
      { s with line := Line.released, OCR1A := 34600, tx_state := tx_idle }
    else if s.tx_state = ir_repeat then
      { s with line := Line.released, OCR1A := 4200, tx_state := (s.tx_state + 1) % 256 }
    else if s.tx_state = ir_repeat_end_pulse then
      { s with line := Line.low, OCR1A := 800, tx_state := (s.tx_state + 1) % 256 }
    else if s.tx_state = ir_repeat_stop then
      { s with line := Line.released, OCR1A := 48500, tx_state := (s.tx_state + 1) % 256 }
    else if s.tx_state = ir_repeat_stop2 then
      { s with OCR1A := 48500, tx_state := tx_idle }
    else s
  else
    if s.tx_state = m_start then
      { s with line := Line.released, OCR1A := 750, tx_state := (s.tx_state + 1) % 256 }
    else if s.tx_state < m_stop then
      let ss := (s.tx_state - m_transmit) % 256
      let bitv := (s.mouse >>> (18 - (ss >>> 1))) &&& 0x1
      if ss &&& 0x1 = 0 then
        { s with line := Line.low, OCR1A := if bitv ≠ 0 then 1000 else 276,
                 tx_state := (s.tx_state + 1) % 256 }
      else
        { s with line := Line.released, OCR1A := if bitv ≠ 0 then 750 else 1470,
                 tx_state := (s.tx_state + 1) % 256 }
    else if s.tx_state = m_stop then
      { s with line := Line.low, OCR1A := 176, tx_state := (s.tx_state + 1) % 256 }
    else
      { s with line := Line.released, OCR1A := 28000, tx_state := tx_idle }

/-! ## Running the timer routine -/

/-- State after the timer routine ran once for each port value of the list. -/
def ticks : List Nat → State → State
  | [], s => s
  | p :: ps, s => ticks ps (TIMER1_COMPA_vect p s)

/-- The segments programmed by successive runs of the timer routine: after each
run, the line level and the compare value then in force. -/
def segments : List Nat → State → List Segment
  | [], _ => []
  | p :: ps, s =>
    ((TIMER1_COMPA_vect p s).line, (TIMER1_COMPA_vect p s).OCR1A)
      :: segments ps (TIMER1_COMPA_vect p s)

/-! ## Reading a programmed waveform -/

/-- Sum of the compare values of a list of segments, in timer ticks (0.5 us). -/
def total (segs : List Segment) : Nat := (segs.map Prod.snd).sum

/-- Compare value of the pause of data slot `i` of an infra-red full frame:
segment `3 + 2 * i` (after the start pulse, the start pause and `i` earlier
slots, each a pulse and a pause, comes the pulse of slot `i`, then its pause). -/
def slotPause (segs : List Segment) (i : Nat) : Nat :=
  (segs.getD (3 + 2 * i) (Line.low, 0)).2

/-- Bit carried by a pause: 1200 us (2400 ticks) is 1, 400 us (800 ticks) is 0. -/
def decodePause (d : Nat) : Option Nat :=
  if d = 2400 then some 1 else if d = 800 then some 0 else none

/-- Value of a list of pauses read most-significant bit first. -/
def readGroup (ds : List Nat) : Option Nat :=
  ds.foldl
    (fun acc d =>
      match acc, decodePause d with
      | some a, some b => some (2 * a + b)
      | _, _ => none)
    (some 0)

/-- The 12-bit group carried by the pauses of slots 0..11. -/
def firstGroup (segs : List Segment) : Option Nat :=
  readGroup ((List.range' 0 12).map (slotPause segs))

/-- The 12-bit group carried by the pauses of slots 12..23. -/
def secondGroup (segs : List Segment) : Option Nat :=
  readGroup ((List.range' 12 12).map (slotPause segs))

/-! ## Closed forms of the data steps (used by the proofs) -/

/-- Line level programmed in state `k` of the infra-red data steps (2..49). -/
def irLine (k : Nat) : Line := if k % 2 = 0 then Line.low else Line.released

/-- Compare value programmed in state `k` of the infra-red data steps (2..49)
for the stored value `v`. -/
def irOCR (v k : Nat) : Nat :=
  if k % 2 = 0 then 800
  else if k ≤ 26 then (if v.testBit (11 - (k - 3) / 2) then 2400 else 800)
  else (if v.testBit (23 - (k - 3) / 2) then 800 else 2400)

/-- Segments of an infra-red full frame after its start pulse. -/
def irFrameTail (v : Nat) : List Segment :=
  (Line.released, 9000) ::
    ((List.range' 2 48).map (fun j => (irLine j, irOCR v j))
      ++ [(Line.low, 800), (Line.released, 34600)])

/-- Line level programmed in state `k` of the mouse data steps (57..94). -/
def mLine (k : Nat) : Line := if k % 2 = 1 then Line.low else Line.released

/-- Compare value programmed in state `k` of the mouse data steps (57..94) for
the captured frame `m`. -/
def mOCR (m k : Nat) : Nat :=
  if k % 2 = 1 then (if m.testBit (18 - (k - 57) / 2) then 1000 else 276)
  else (if m.testBit (18 - (k - 57) / 2) then 750 else 1470)

/-- Segments of a motion frame after its start pulse, for the captured frame `m`. -/
def mFrameTail (m : Nat) : List Segment :=
  (Line.released, 750) ::
    ((List.range' 57 38).map (fun j => (mLine j, mOCR m j))
      ++ [(Line.low, 176), (Line.released, 28000)])

/-- Number of set bits among bits 0..18 of `m`. -/
def popcount19 (m : Nat) : Nat := ((List.range' 0 19).map (fun k => (m.testBit k).toNat)).sum

/-! ## Calls on the accumulator -/

/-- A call on the motion accumulator: `mouse_set_state(buttons, x, y)` or a drain
by `mouse_get_state`. -/
inductive AccOp where
  | post (buttons : Nat) (x y : Int)
  | drain
  deriving DecidableEq, Repr

/-- The arguments of a call fit their C types `uint8_t`, `int8_t`, `int8_t`. -/
def AccOp.valid : AccOp → Prop
  | AccOp.post b x y => b < 256 ∧ -128 ≤ x ∧ x ≤ 127 ∧ -128 ≤ y ∧ y ≤ 127
  | AccOp.drain => True

/-- The button argument of a call has no bit above bit `n - 1`. -/
def AccOp.maskBelow (n : Nat) : AccOp → Prop
  | AccOp.post b _ _ => b < 2 ^ n
  | AccOp.drain => True

/-- State after one call on the accumulator. -/
def accStep : AccOp → State → State
  | AccOp.post b x y, s => mouse_set_state b x y s
  | AccOp.drain, s => (mouse_get_state s).2.2

/-- State after a sequence of calls on the accumulator. -/
def accRun : List AccOp → State → State
  | [], s => s
  | o :: os, s => accRun os (accStep o s)

/-- `n` successive calls `mouse_set_state(0, 0, 0)`. -/
def postZero : Nat → State → State
  | 0, s => s
  | n + 1, s => postZero n (mouse_set_state 0 0 0 s)

/-- A byte read as a signed 8-bit value. -/
def s8 (b : Nat) : Int := if b < 128 then (b : Int) else (b : Int) - 256

/-- The horizontal byte of a frame written by `mouse_get_state`. -/
def frameX (ms : Nat) : Nat := (ms >>> 8) % 256

/-- The vertical byte of a frame written by `mouse_get_state`. -/
def frameY (ms : Nat) : Nat := ms % 256

/-- The button field of a frame written by `mouse_get_state`. -/
def frameButtons (ms : Nat) : Nat := ms >>> 16

/-! ## Events -/

/-- What happens to the program after `cdtv_init`: a run of the timer routine
(with the value `PINC` has at that time), a call of `mouse_set_state`, or a
pin-change interrupt.  No order is imposed: the timer routine may run in any
state, which includes every order the hardware allows. -/
inductive Event where
  | tick (pinc : Nat)
  | post (buttons : Nat) (x y : Int)
  | pinchange
  deriving DecidableEq, Repr

/-- State after one event. -/
def step : Event → State → State
  | Event.tick p, s => TIMER1_COMPA_vect p s
  | Event.post b x y, s => mouse_set_state b x y s
  | Event.pinchange, s => PCINT1_vect s

/-- State after a sequence of events. -/
def exec : List Event → State → State
  | [], s => s
  | e :: es, s => exec es (step e s)

/-- The segments programmed during a sequence of events: one for each run of the
timer routine, the line level and compare value it leaves. -/
def wave : List Event → State → List Segment
  | [], _ => []
  | Event.tick p :: es, s =>
    ((TIMER1_COMPA_vect p s).line, (TIMER1_COMPA_vect p s).OCR1A)
      :: wave es (TIMER1_COMPA_vect p s)
  | Event.post b x y :: es, s => wave es (mouse_set_state b x y s)
  | Event.pinchange :: es, s => wave es (PCINT1_vect s)

/-- Number of runs of the timer routine in a sequence of events. -/
def tickCount : List Event → Nat
  | [] => 0
  | Event.tick _ :: es => tickCount es + 1
  | Event.post _ _ _ :: es => tickCount es
  | Event.pinchange :: es => tickCount es

/-- State after the events of a sequence other than the runs of the timer
routine. -/
def skipTicks : List Event → State → State
  | [], s => s
  | Event.tick _ :: es, s => skipTicks es s
  | Event.post b x y :: es, s => skipTicks es (mouse_set_state b x y s)
  | Event.pinchange :: es, s => skipTicks es (PCINT1_vect s)

/-- Transmit state after a run of the timer routine in the non-idle state `k`. -/
def nextTx (k : Nat) : Nat := if k = 51 ∨ k = 55 ∨ 96 ≤ k then 0 else k + 1

/-- Number of runs of the timer routine from transmit state `k` to the return to
idle. -/
def frameLen (k : Nat) : Nat :=
  if k = 0 then 0
  else if k ≤ 51 then 52 - k
  else if k ≤ 55 then 56 - k
  else if k ≤ 96 then 97 - k
  else 1

/-- Line level left by a run of the timer routine in the non-idle state `k`, the
line being at level `l` before (closed form used by the proofs). -/
def outLine (k : Nat) (l : Line) : Line :=
  if k = 1 then Line.released
  else if k < 50 then irLine k
  else if k = 50 then Line.low
  else if k = 51 then Line.released
  else if k = 52 then Line.released
  else if k = 53 then Line.low
  else if k = 54 then Line.released
  else if k = 55 then l
  else if k = 56 then Line.released
  else if k < 95 then mLine k
  else if k = 95 then Line.low
  else Line.released

/-- Compare value stored by a run of the timer routine in the non-idle state `k`
for the stored sample `v` and the captured frame `m` (closed form used by the
proofs). -/
def outOCR (k v m : Nat) : Nat :=
  if k = 1 then 9000
  else if k < 50 then irOCR v k
  else if k = 50 then 800
  else if k = 51 then 34600
  else if k = 52 then 4200
  else if k = 53 then 800
  else if k = 54 then 48500
  else if k = 55 then 48500
  else if k = 56 then 750
  else if k < 95 then mOCR m k
  else if k = 95 then 176
  else 28000

/-! ## Single steps of the timer routine -/

theorem shift_and_one_ne_zero (v k : Nat) : ((v >>> k) &&& 1 ≠ 0) ↔ v.testBit k = true := by
  rw [Nat.testBit_to_div_mod, Nat.and_one_is_mod, Nat.shiftRight_eq_div_pow]
  simp only [decide_eq_true_eq]
  omega

theorem tick_ir_transmit (p : Nat) (s : State) (k : Nat) (h2 : 2 ≤ k) (h50 : k < 50)
    (hk : s.tx_state = k) :
    TIMER1_COMPA_vect p s =
      { s with line := irLine k, OCR1A := irOCR s.joy_state k, tx_state := k + 1 } := by
  unfold TIMER1_COMPA_vect
  rw [hk]
  interval_cases k <;>
    simp [tx_idle, m_start, ir_start, ir_end_pulse, ir_transmit, irLine, irOCR,
      ← shift_and_one_ne_zero]

theorem tick_m_transmit (p : Nat) (s : State) (k : Nat) (h2 : 57 ≤ k) (h50 : k < 95)
    (hk : s.tx_state = k) :
    TIMER1_COMPA_vect p s =
      { s with line := mLine k, OCR1A := mOCR s.mouse k, tx_state := k + 1 } := by
  unfold TIMER1_COMPA_vect
  rw [hk]
  interval_cases k <;>
    simp [tx_idle, m_start, m_transmit, m_stop, mLine, mOCR, ← shift_and_one_ne_zero]

/-! ## Runs of the timer routine -/

theorem segments_append (ps qs : List Nat) (s : State) :
    segments (ps ++ qs) s = segments ps s ++ segments qs (ticks ps s) := by
  induction ps generalizing s with
  | nil => rfl
  | cons p ps ih => simp [segments, ticks, ih]

theorem ticks_append (ps qs : List Nat) (s : State) :
    ticks (ps ++ qs) s = ticks qs (ticks ps s) := by
  induction ps generalizing s with
  | nil => rfl
  | cons p ps ih => simp [ticks, ih]

theorem run_ir_transmit (n : Nat) : ∀ (k : Nat) (ps : List Nat) (s : State),
    2 ≤ k → k + n ≤ 50 → ps.length = n → s.tx_state = k →
    segments ps s = (List.range' k n).map (fun j => (irLine j, irOCR s.joy_state j)) ∧
    ∃ l o, ticks ps s = { s with line := l, OCR1A := o, tx_state := k + n } := by
  induction n with
  | zero =>
    intro k ps s _ _ hlen hk
    have : ps = [] := List.length_eq_zero.mp hlen
    subst this
    refine ⟨rfl, s.line, s.OCR1A, ?_⟩
    simp [ticks, ← hk]
  | succ n ih =>
    intro k ps s h2 h50 hlen hk
    match ps, hlen with
    | p :: ps, hlen =>
      have hstep := tick_ir_transmit p s k h2 (by omega) hk
      have hlen1 : ps.length = n := by simpa using hlen
      obtain ⟨hseg, l, o, hfin⟩ := ih (k + 1) ps (TIMER1_COMPA_vect p s) (by omega) (by omega)
        hlen1 (by rw [hstep])
      refine ⟨?_, l, o, ?_⟩
      · simp only [segments, List.range', List.map_cons]
        rw [hseg, hstep]
      · simp only [ticks]
        rw [hfin, hstep]
        simp
        omega

theorem tick_idle_ir (p : Nat) (s : State) (h : s.tx_state = tx_idle)
    (hne : joystick_get_state p ≠ 0 ∨ s.joy_state ≠ 0) :
    TIMER1_COMPA_vect p s =
      { s with tx_state := if joystick_get_state p = s.joy_state then ir_repeat else ir_start,
               joy_state := joystick_get_state p, line := Line.low, OCR1A := 18000,
               TCNT1 := 0 } := by
  unfold TIMER1_COMPA_vect
  simp only [h, if_true]
  rw [if_pos hne]

theorem run_ir_frame (ps : List Nat) (s : State) (hk : s.tx_state = ir_start)
    (hlen : ps.length = 51) :
    segments ps s = irFrameTail s.joy_state ∧
    ticks ps s = { s with line := Line.released, OCR1A := 34600, tx_state := tx_idle } := by
  match ps, hlen with
  | p :: ps, hlen =>
    have hlen50 : ps.length = 50 := by simpa using hlen
    have h1 : TIMER1_COMPA_vect p s =
        { s with line := Line.released, OCR1A := 9000, tx_state := 2 } := by
      unfold TIMER1_COMPA_vect
      simp [hk, ir_start, tx_idle, m_start]
    obtain ⟨hseg, l, o, hfin⟩ := run_ir_transmit 48 2 (ps.take 48) (TIMER1_COMPA_vect p s)
      (by omega) (by omega) (by simp [hlen50]) (by rw [h1])
    have hdrop : (ps.drop 48).length = 2 := by simp [hlen50]
    obtain ⟨a, b, hab⟩ := List.length_eq_two.mp hdrop
    have hsplit : ps = ps.take 48 ++ [a, b] := by rw [← hab, List.take_append_drop]
    have h2 : TIMER1_COMPA_vect a (ticks (ps.take 48) (TIMER1_COMPA_vect p s)) =
        { s with line := Line.low, OCR1A := 800, tx_state := 51 } := by
      rw [hfin, h1]
      simp [TIMER1_COMPA_vect, ir_start, tx_idle, m_start, ir_end_pulse, ir_transmit]
    have h3 : TIMER1_COMPA_vect b
        (TIMER1_COMPA_vect a (ticks (ps.take 48) (TIMER1_COMPA_vect p s))) =
        { s with line := Line.released, OCR1A := 34600, tx_state := tx_idle } := by
      rw [h2]
      simp [TIMER1_COMPA_vect, ir_start, tx_idle, m_start, ir_end_pulse, ir_transmit, ir_stop]
    constructor
    · rw [hsplit]
      simp only [segments, segments_append]
      rw [hseg, h3, h2, h1]
      rfl
    · rw [hsplit]
      simp only [ticks, ticks_append]
      rw [h3]

theorem run_full_frame (p : Nat) (ps : List Nat) (s : State) (h : s.tx_state = tx_idle)
    (hne : joystick_get_state p ≠ s.joy_state) (hlen : ps.length = 51) :
    segments (p :: ps) s = (Line.low, 18000) :: irFrameTail (joystick_get_state p) ∧
    ticks (p :: ps) s =
      { s with joy_state := joystick_get_state p, line := Line.released, OCR1A := 34600,
               TCNT1 := 0, tx_state := tx_idle } := by
  have hor : joystick_get_state p ≠ 0 ∨ s.joy_state ≠ 0 := by
    by_cases h0 : joystick_get_state p = 0
    · right; intro hj; exact hne (by rw [h0, hj])
    · left; exact h0
  have h1 := tick_idle_ir p s h hor
  rw [if_neg hne] at h1
  obtain ⟨hseg, hfin⟩ := run_ir_frame ps (TIMER1_COMPA_vect p s) (by rw [h1]) hlen
  constructor
  · simp only [segments]
    rw [hseg, h1]
  · simp only [ticks]
    rw [hfin, h1]

/-! ## Decoding a full frame -/

theorem decodePause_hi (c : Bool) :
    decodePause (if c = true then 2400 else 800) = some c.toNat := by
  cases c <;> rfl

theorem decodePause_lo (c : Bool) :
    decodePause (if c = true then 800 else 2400) = some (!c).toNat := by
  cases c <;> rfl

theorem toNat_not_add (c : Bool) : (!c).toNat + c.toNat = 1 := by
  cases c <;> rfl

theorem horner12 (v x0 x1 x2 x3 x4 x5 x6 x7 x8 x9 x10 x11 : Nat)
    (q1 q2 q3 q4 q5 q6 q7 q8 q9 q10 q11 q12 : Nat)
    (h0 : v = 2 * q1 + x0) (h1 : q1 = 2 * q2 + x1) (h2 : q2 = 2 * q3 + x2)
    (h3 : q3 = 2 * q4 + x3) (h4 : q4 = 2 * q5 + x4) (h5 : q5 = 2 * q6 + x5)
    (h6 : q6 = 2 * q7 + x6) (h7 : q7 = 2 * q8 + x7) (h8 : q8 = 2 * q9 + x8)
    (h9 : q9 = 2 * q10 + x9) (h10 : q10 = 2 * q11 + x10) (h11 : q11 = 2 * q12 + x11)
    (b0 : x0 < 2) (b1 : x1 < 2) (b2 : x2 < 2) (b3 : x3 < 2) (b4 : x4 < 2) (b5 : x5 < 2)
    (b6 : x6 < 2) (b7 : x7 < 2) (b8 : x8 < 2) (b9 : x9 < 2) (b10 : x10 < 2) (b11 : x11 < 2) :
    2 * (2 * (2 * (2 * (2 * (2 * (2 * (2 * (2 * (2 * (2 * (0 + x11) + x10) + x9) + x8) + x7)
      + x6) + x5) + x4) + x3) + x2) + x1) + x0 = v % 4096 := by
  omega

theorem bits12_sum (v : Nat) :
    2 * (2 * (2 * (2 * (2 * (2 * (2 * (2 * (2 * (2 * (2 * (0 + (v.testBit 11).toNat)
      + (v.testBit 10).toNat) + (v.testBit 9).toNat) + (v.testBit 8).toNat)
      + (v.testBit 7).toNat) + (v.testBit 6).toNat) + (v.testBit 5).toNat)
      + (v.testBit 4).toNat) + (v.testBit 3).toNat) + (v.testBit 2).toNat)
      + (v.testBit 1).toNat) + (v.testBit 0).toNat = v % 4096 := by
  simp only [Nat.toNat_testBit]
  exact horner12 v _ _ _ _ _ _ _ _ _ _ _ _ (v / 2 ^ 1) (v / 2 ^ 2) (v / 2 ^ 3) (v / 2 ^ 4)
    (v / 2 ^ 5) (v / 2 ^ 6) (v / 2 ^ 7) (v / 2 ^ 8) (v / 2 ^ 9) (v / 2 ^ 10) (v / 2 ^ 11)
    (v / 2 ^ 12) (by omega) (by omega) (by omega) (by omega) (by omega) (by omega) (by omega)
    (by omega) (by omega) (by omega) (by omega) (by omega) (by omega) (by omega) (by omega)
    (by omega) (by omega) (by omega) (by omega) (by omega) (by omega) (by omega) (by omega)
    (by omega)

theorem firstGroup_fullFrame (v : Nat) :
    firstGroup ((Line.low, 18000) :: irFrameTail v) = some (v % 4096) := by
  simp only [firstGroup, slotPause, irFrameTail, List.range', List.map, List.getD_cons_succ,
    List.getD_cons_zero, List.cons_append, List.nil_append, irOCR, irLine, readGroup,
    List.foldl, Nat.reduceMul, Nat.reduceAdd, Nat.reduceMod, Nat.reduceSub, Nat.reduceDiv,
    Nat.reduceLeDiff, Nat.reduceEqDiff, if_true, if_false, decodePause_hi, decodePause_lo,
    OfNat.ofNat_ne_zero, one_ne_zero, Option.some.injEq]
  exact bits12_sum v

theorem secondGroup_fullFrame (v : Nat) :
    secondGroup ((Line.low, 18000) :: irFrameTail v) = some (4095 - v % 4096) := by
  simp only [secondGroup, slotPause, irFrameTail, List.range', List.map, List.getD_cons_succ,
    List.getD_cons_zero, List.cons_append, List.nil_append, irOCR, irLine, readGroup,
    List.foldl, Nat.reduceMul, Nat.reduceAdd, Nat.reduceMod, Nat.reduceSub, Nat.reduceDiv,
    Nat.reduceLeDiff, Nat.reduceEqDiff, if_true, if_false, decodePause_hi, decodePause_lo,
    OfNat.ofNat_ne_zero, one_ne_zero, Option.some.injEq]
  have hx := bits12_sum v
  have h11 := toNat_not_add (v.testBit 11)
  have h10 := toNat_not_add (v.testBit 10)
  have h9 := toNat_not_add (v.testBit 9)
  have h8 := toNat_not_add (v.testBit 8)
  have h7 := toNat_not_add (v.testBit 7)
  have h6 := toNat_not_add (v.testBit 6)
  have h5 := toNat_not_add (v.testBit 5)
  have h4 := toNat_not_add (v.testBit 4)
  have h3 := toNat_not_add (v.testBit 3)
  have h2 := toNat_not_add (v.testBit 2)
  have h1 := toNat_not_add (v.testBit 1)
  have h0 := toNat_not_add (v.testBit 0)
  omega

theorem total_fullFrame (v : Nat) :
    total ((Line.low, 18000) :: irFrameTail v) = 120000 := by
  have hi : ∀ c : Bool, (if c = true then 2400 else 800) = 800 + 1600 * c.toNat := by
    intro c; cases c <;> rfl
  have lo : ∀ c : Bool, (if c = true then 800 else 2400) = 800 + 1600 * (!c).toNat := by
    intro c; cases c <;> rfl
  simp only [total, irFrameTail, List.range', List.map, List.cons_append, List.nil_append,
    irOCR, irLine, List.sum_cons, List.sum_nil, Nat.reduceMul, Nat.reduceAdd, Nat.reduceMod,
    Nat.reduceSub, Nat.reduceDiv, Nat.reduceLeDiff, Nat.reduceEqDiff, if_true, if_false,
    OfNat.ofNat_ne_zero, one_ne_zero, hi, lo]
  have h11 := toNat_not_add (v.testBit 11)
  have h10 := toNat_not_add (v.testBit 10)
  have h9 := toNat_not_add (v.testBit 9)
  have h8 := toNat_not_add (v.testBit 8)
  have h7 := toNat_not_add (v.testBit 7)
  have h6 := toNat_not_add (v.testBit 6)
  have h5 := toNat_not_add (v.testBit 5)
  have h4 := toNat_not_add (v.testBit 4)
  have h3 := toNat_not_add (v.testBit 3)
  have h2 := toNat_not_add (v.testBit 2)
  have h1 := toNat_not_add (v.testBit 1)
  have h0 := toNat_not_add (v.testBit 0)
  omega

/-! ## Frames from idle -/

theorem joystick_get_state_eq (pinc : Nat) (h : joy_s pinc ≠ 0) :
    joystick_get_state pinc = 0x800 ||| (joy_s pinc <<< 2) ∧
    joystick_get_state pinc % 4096 = 0x800 ||| (joy_s pinc <<< 2) ∧
    4095 - joystick_get_state pinc % 4096 = 0xFFF ^^^ (0x800 ||| (joy_s pinc <<< 2)) ∧
    joystick_get_state pinc ≠ 0 := by
  have hlt : joy_s pinc < 64 := by
    unfold joy_s
    exact Nat.lt_of_le_of_lt Nat.and_le_right (by decide)
  revert h
  unfold joystick_get_state
  generalize joy_s pinc = t at hlt ⊢
  intro h
  rw [if_pos h]
  interval_cases t <;> simp_all

theorem tick_ir_count (p : Nat) (s : State) (k : Nat) (h1 : 1 ≤ k) (h50 : k ≤ 50)
    (hk : s.tx_state = k) : (TIMER1_COMPA_vect p s).tx_state = k + 1 := by
  by_cases hlo : k = 1
  · subst hlo
    simp [TIMER1_COMPA_vect, hk, ir_start, tx_idle, m_start]
  · by_cases hhi : k = 50
    · subst hhi
      simp [TIMER1_COMPA_vect, hk, ir_start, tx_idle, m_start, ir_end_pulse, ir_transmit]
    · rw [tick_ir_transmit p s k (by omega) (by omega) hk]

theorem ticks_ir_count (n : Nat) : ∀ (k : Nat) (ps : List Nat) (s : State),
    1 ≤ k → k + n ≤ 51 → ps.length = n → s.tx_state = k → (ticks ps s).tx_state = k + n := by
  induction n with
  | zero =>
    intro k ps s _ _ hlen hk
    have : ps = [] := List.length_eq_zero.mp hlen
    subst this
    simpa [ticks] using hk
  | succ n ih =>
    intro k ps s h1 h51 hlen hk
    match ps, hlen with
    | p :: ps, hlen =>
      have hlen1 : ps.length = n := by simpa using hlen
      have := ih (k + 1) ps (TIMER1_COMPA_vect p s) (by omega) (by omega) hlen1
        (tick_ir_count p s k h1 (by omega) hk)
      simp only [ticks]
      omega

theorem fullFrame_split (v : Nat) :
    (Line.low, 18000) :: irFrameTail v =
      ((Line.low, 18000) :: (Line.released, 9000) ::
        ((List.range' 2 48).map (fun j => (irLine j, irOCR v j)) ++ [(Line.low, 800)]))
      ++ [(Line.released, 34600)] := by
  simp [irFrameTail]

theorem content_fullFrame (v : Nat) :
    total ((Line.low, 18000) :: (Line.released, 9000) ::
        ((List.range' 2 48).map (fun j => (irLine j, irOCR v j)) ++ [(Line.low, 800)]))
      = 85400 := by
  have h := total_fullFrame v
  rw [fullFrame_split] at h
  simp only [total, List.map_append, List.sum_append, List.map_cons, List.map_nil,
    List.sum_cons, List.sum_nil] at h ⊢
  omega

theorem total_cons (a : Segment) (l : List Segment) : total (a :: l) = a.2 + total l := by
  simp [total]

theorem run_repeat_frame (p : Nat) (ps : List Nat) (s : State) (h : s.tx_state = tx_idle)
    (hnz : joystick_get_state p ≠ 0) (heq : joystick_get_state p = s.joy_state)
    (hlen : ps.length = 4) :
    segments (p :: ps) s =
      [(Line.low, 18000), (Line.released, 4200), (Line.low, 800), (Line.released, 48500),
        (Line.released, 48500)] ∧
    ticks (p :: ps) s = { s with line := Line.released, OCR1A := 48500, TCNT1 := 0 } ∧
    (∀ n, 0 < n → n < 5 → (ticks ((p :: ps).take n) s).tx_state ≠ tx_idle) := by
  have h1 := tick_idle_ir p s h (Or.inl hnz)
  rw [if_pos heq] at h1
  match ps, hlen with
  | [a, b, c, d], _ =>
    refine ⟨?_, ?_, ?_⟩
    · simp only [segments]
      rw [h1]
      simp [TIMER1_COMPA_vect, tx_idle, ir_start, ir_repeat, m_start, ir_end_pulse,
        ir_transmit, ir_stop, ir_repeat_end_pulse, ir_repeat_stop, ir_repeat_stop2]
    · simp only [ticks]
      rw [h1]
      simp [TIMER1_COMPA_vect, tx_idle, ir_start, ir_repeat, m_start, ir_end_pulse,
        ir_transmit, ir_stop, ir_repeat_end_pulse, ir_repeat_stop, ir_repeat_stop2, ← heq]
      rw [h]; rfl
    · intro n h0 h5
      interval_cases n <;>
      · simp only [List.take_succ_cons, List.take_zero, ticks]
        rw [h1]
        simp [TIMER1_COMPA_vect, tx_idle, ir_start, ir_repeat, m_start, ir_end_pulse,
          ir_transmit, ir_stop, ir_repeat_end_pulse, ir_repeat_stop, ir_repeat_stop2]

theorem run_m_transmit (n : Nat) : ∀ (k : Nat) (ps : List Nat) (s : State),
    57 ≤ k → k + n ≤ 95 → ps.length = n → s.tx_state = k →
    segments ps s = (List.range' k n).map (fun j => (mLine j, mOCR s.mouse j)) ∧
    ∃ l o, ticks ps s = { s with line := l, OCR1A := o, tx_state := k + n } := by
  induction n with
  | zero =>
    intro k ps s _ _ hlen hk
    have : ps = [] := List.length_eq_zero.mp hlen
    subst this
    refine ⟨rfl, s.line, s.OCR1A, ?_⟩
    simp [ticks, ← hk]
  | succ n ih =>
    intro k ps s h2 h50 hlen hk
    match ps, hlen with
    | p :: ps, hlen =>
      have hstep := tick_m_transmit p s k h2 (by omega) hk
      have hlen1 : ps.length = n := by simpa using hlen
      obtain ⟨hseg, l, o, hfin⟩ := ih (k + 1) ps (TIMER1_COMPA_vect p s) (by omega) (by omega)
        hlen1 (by rw [hstep])
      refine ⟨?_, l, o, ?_⟩
      · simp only [segments, List.range', List.map_cons]
        rw [hseg, hstep]
      · simp only [ticks]
        rw [hfin, hstep]
        simp
        omega

theorem run_m_frame (ps : List Nat) (s : State) (hk : s.tx_state = m_start)
    (hlen : ps.length = 41) :
    segments ps s = mFrameTail s.mouse ∧
    ticks ps s = { s with line := Line.released, OCR1A := 28000, tx_state := tx_idle } := by
  match ps, hlen with
  | p :: ps, hlen =>
    have hlen40 : ps.length = 40 := by simpa using hlen
    have h1 : TIMER1_COMPA_vect p s =
        { s with line := Line.released, OCR1A := 750, tx_state := 57 } := by
      unfold TIMER1_COMPA_vect
      simp [hk, tx_idle, m_start]
    obtain ⟨hseg, l, o, hfin⟩ := run_m_transmit 38 57 (ps.take 38) (TIMER1_COMPA_vect p s)
      (by omega) (by omega) (by simp [hlen40]) (by rw [h1])
    have hdrop : (ps.drop 38).length = 2 := by simp [hlen40]
    obtain ⟨a, b, hab⟩ := List.length_eq_two.mp hdrop
    have hsplit : ps = ps.take 38 ++ [a, b] := by rw [← hab, List.take_append_drop]
    have h2 : TIMER1_COMPA_vect a (ticks (ps.take 38) (TIMER1_COMPA_vect p s)) =
        { s with line := Line.low, OCR1A := 176, tx_state := 96 } := by
      rw [hfin, h1]
      simp [TIMER1_COMPA_vect, tx_idle, m_start, m_stop, m_transmit]
    have h3 : TIMER1_COMPA_vect b
        (TIMER1_COMPA_vect a (ticks (ps.take 38) (TIMER1_COMPA_vect p s))) =
        { s with line := Line.released, OCR1A := 28000, tx_state := tx_idle } := by
      rw [h2]
      simp [TIMER1_COMPA_vect, tx_idle, m_start, m_stop, m_transmit]
    constructor
    · rw [hsplit]
      simp only [segments, segments_append]
      rw [hseg, h3, h2, h1]
      rfl
    · rw [hsplit]
      simp only [ticks, ticks_append]
      rw [h3]

theorem tick_idle_mouse (p : Nat) (s : State) (h : s.tx_state = tx_idle)
    (hp : joystick_get_state p = 0) (hj : s.joy_state = 0) :
    TIMER1_COMPA_vect p s =
      if (mouse_get_state s).1 ≠ 0 then
        { s with mouse_x := 0, mouse_y := 0, mouse_buttons := 0,
                 mouse := (mouse_get_state s).2.1, tx_state := m_start, line := Line.low,
                 OCR1A := 2200, TCNT1 := 0 }
      else
        { s with mouse_x := 0, mouse_y := 0, mouse_buttons := 0,
                 mouse := (mouse_get_state s).2.1, CS11 := false } := by
  unfold TIMER1_COMPA_vect
  rw [if_pos h]
  have hno : ¬ (joystick_get_state p ≠ 0 ∨ s.joy_state ≠ 0) := by simp [hp, hj]
  simp only [if_neg hno]
  rfl

theorem run_motion_frame (p : Nat) (ps : List Nat) (s : State) (h : s.tx_state = tx_idle)
    (hp : joystick_get_state p = 0) (hj : s.joy_state = 0)
    (hdata : (mouse_get_state s).1 ≠ 0) (hlen : ps.length = 41) :
    segments (p :: ps) s = (Line.low, 2200) :: mFrameTail (mouse_get_state s).2.1 ∧
    ticks (p :: ps) s =
      { s with mouse_x := 0, mouse_y := 0, mouse_buttons := 0,
               mouse := (mouse_get_state s).2.1, line := Line.released, OCR1A := 28000,
               TCNT1 := 0, tx_state := tx_idle } := by
  have h1 := tick_idle_mouse p s h hp hj
  rw [if_pos hdata] at h1
  obtain ⟨hseg, hfin⟩ := run_m_frame ps (TIMER1_COMPA_vect p s) (by rw [h1]) hlen
  constructor
  · simp only [segments]
    rw [hseg, h1]
  · simp only [ticks]
    rw [hfin, h1]

theorem tick_m_count (p : Nat) (s : State) (k : Nat) (h1 : 56 ≤ k) (h95 : k ≤ 95)
    (hk : s.tx_state = k) : (TIMER1_COMPA_vect p s).tx_state = k + 1 := by
  by_cases hlo : k = 56
  · subst hlo
    simp [TIMER1_COMPA_vect, hk, tx_idle, m_start]
  · by_cases hhi : k = 95
    · subst hhi
      simp [TIMER1_COMPA_vect, hk, tx_idle, m_start, m_stop, m_transmit]
    · rw [tick_m_transmit p s k (by omega) (by omega) hk]

theorem ticks_m_count (n : Nat) : ∀ (k : Nat) (ps : List Nat) (s : State),
    56 ≤ k → k + n ≤ 96 → ps.length = n → s.tx_state = k → (ticks ps s).tx_state = k + n := by
  induction n with
  | zero =>
    intro k ps s _ _ hlen hk
    have : ps = [] := List.length_eq_zero.mp hlen
    subst this
    simpa [ticks] using hk
  | succ n ih =>
    intro k ps s h1 h51 hlen hk
    match ps, hlen with
    | p :: ps, hlen =>
      have hlen1 : ps.length = n := by simpa using hlen
      have := ih (k + 1) ps (TIMER1_COMPA_vect p s) (by omega) (by omega) hlen1
        (tick_m_count p s k h1 (by omega) hk)
      simp only [ticks]
      omega

theorem mFrame_explicit (m : Nat) :
    (Line.low, 2200) :: mFrameTail m =
      [(Line.low, 2200), (Line.released, 750)]
        ++ (List.range' 0 19).flatMap (fun k =>
            [(Line.low, if m.testBit (18 - k) then 1000 else 276),
             (Line.released, if m.testBit (18 - k) then 750 else 1470)])
        ++ [(Line.low, 176), (Line.released, 28000)] := by
  simp [mFrameTail, List.range', mLine, mOCR, List.flatMap]

theorem mOCR_mod (m k : Nat) : mOCR (m % 2 ^ 19) k = mOCR m k := by
  have h : (m % 2 ^ 19).testBit (18 - (k - 57) / 2) = m.testBit (18 - (k - 57) / 2) := by
    rw [Nat.testBit_mod_two_pow]
    have : 18 - (k - 57) / 2 < 19 := by omega
    simp [this]
  unfold mOCR
  rw [h]

theorem mFrameTail_mod (m : Nat) : mFrameTail (m % 2 ^ 19) = mFrameTail m := by
  unfold mFrameTail
  simp only [mOCR_mod]

theorem total_mFrame (m : Nat) :
    total ((Line.low, 2200) :: mFrameTail m) = 64300 + 4 * popcount19 m := by
  have hi : ∀ c : Bool, (if c = true then 1000 else 276) = 276 + 724 * c.toNat := by
    intro c; cases c <;> rfl
  have lo : ∀ c : Bool, (if c = true then 750 else 1470) = 750 + 720 * (!c).toNat := by
    intro c; cases c <;> rfl
  simp only [total, mFrameTail, popcount19, List.range', List.map, List.cons_append,
    List.nil_append, mOCR, mLine, List.sum_cons, List.sum_nil, Nat.reduceMul, Nat.reduceAdd,
    Nat.reduceMod, Nat.reduceSub, Nat.reduceDiv, Nat.reduceLeDiff, Nat.reduceEqDiff, if_true,
    if_false, OfNat.ofNat_ne_zero, one_ne_zero, hi, lo]
  have h18 := toNat_not_add (m.testBit 18)
  have h17 := toNat_not_add (m.testBit 17)
  have h16 := toNat_not_add (m.testBit 16)
  have h15 := toNat_not_add (m.testBit 15)
  have h14 := toNat_not_add (m.testBit 14)
  have h13 := toNat_not_add (m.testBit 13)
  have h12 := toNat_not_add (m.testBit 12)
  have h11 := toNat_not_add (m.testBit 11)
  have h10 := toNat_not_add (m.testBit 10)
  have h9 := toNat_not_add (m.testBit 9)
  have h8 := toNat_not_add (m.testBit 8)
  have h7 := toNat_not_add (m.testBit 7)
  have h6 := toNat_not_add (m.testBit 6)
  have h5 := toNat_not_add (m.testBit 5)
  have h4 := toNat_not_add (m.testBit 4)
  have h3 := toNat_not_add (m.testBit 3)
  have h2 := toNat_not_add (m.testBit 2)
  have h1 := toNat_not_add (m.testBit 1)
  have h0 := toNat_not_add (m.testBit 0)
  omega

theorem popcount19_le (m : Nat) : popcount19 m ≤ 19 := by
  have hb : ∀ c : Bool, c.toNat ≤ 1 := by intro c; cases c <;> simp
  simp only [popcount19, List.range', List.map, List.sum_cons, List.sum_nil, Nat.reduceAdd]
  have h18 := hb (m.testBit 18)
  have h17 := hb (m.testBit 17)
  have h16 := hb (m.testBit 16)
  have h15 := hb (m.testBit 15)
  have h14 := hb (m.testBit 14)
  have h13 := hb (m.testBit 13)
  have h12 := hb (m.testBit 12)
  have h11 := hb (m.testBit 11)
  have h10 := hb (m.testBit 10)
  have h9 := hb (m.testBit 9)
  have h8 := hb (m.testBit 8)
  have h7 := hb (m.testBit 7)
  have h6 := hb (m.testBit 6)
  have h5 := hb (m.testBit 5)
  have h4 := hb (m.testBit 4)
  have h3 := hb (m.testBit 3)
  have h2 := hb (m.testBit 2)
  have h1 := hb (m.testBit 1)
  have h0 := hb (m.testBit 0)
  omega

/-! ## The motion accumulator, and samples across frames -/

theorem u8_lt (v : Int) : u8 v < 256 := by
  unfold u8
  omega

theorem u8_neg_eq_zero (x : Int) : u8 (-x) = 0 ↔ x % 256 = 0 := by
  unfold u8
  omega

theorem u8_neg_i16 (v : Int) : u8 (-(i16 v)) = u8 (-v) := by
  unfold u8 i16
  omega

theorem pack_eq (A mx my : Nat) (hx : mx < 256) (hy : my < 256) :
    (A <<< 16) ||| (mx <<< 8) ||| my = 65536 * A + 256 * mx + my := by
  have h1 : (A <<< 16) ||| (mx <<< 8) = 65536 * A + 256 * mx := by
    rw [Nat.shiftLeft_eq, Nat.shiftLeft_eq]
    have := Nat.mul_add_lt_is_or (i := 16) (b := mx * 2 ^ 8) (by omega) A
    rw [show A * 2 ^ 16 = 2 ^ 16 * A by ring, ← this]
    omega
  rw [h1]
  have := Nat.mul_add_lt_is_or (i := 8) (b := my) (by omega) (256 * A + mx)
  rw [show 65536 * A + 256 * mx = 2 ^ 8 * (256 * A + mx) by ring, ← this]

theorem mouse_get_state_frame (s : State) (hb : s.mouse_buttons < 256) :
    (mouse_get_state s).2.1
      = 65536 * (s.mouse_buttons ^^^ 0x7) + 256 * u8 (-s.mouse_x) + u8 (-s.mouse_y) := by
  have hx : s.mouse_buttons ^^^ 0x7 < 2 ^ 8 := Nat.xor_lt_two_pow hb (by decide)
  have h1 : (s.mouse_buttons ^^^ 0x7) % 2 ^ 32 = s.mouse_buttons ^^^ 0x7 :=
    Nat.mod_eq_of_lt (by omega)
  have h2 : ((s.mouse_buttons ^^^ 0x7) <<< 16) % 2 ^ 32 = (s.mouse_buttons ^^^ 0x7) <<< 16 := by
    rw [Nat.shiftLeft_eq]
    exact Nat.mod_eq_of_lt (by omega)
  have h3 : u8 (-s.mouse_x) % 65536 = u8 (-s.mouse_x) :=
    Nat.mod_eq_of_lt (by have := u8_lt (-s.mouse_x); omega)
  show ((((s.mouse_buttons ^^^ 0x7) % 2 ^ 32) <<< 16) % 2 ^ 32)
      ||| ((u8 (-s.mouse_x) % 65536) <<< 8) ||| u8 (-s.mouse_y) = _
  rw [h1, h2, h3, pack_eq _ _ _ (u8_lt _) (u8_lt _)]

theorem mouse_get_state_rv (s : State) :
    ((mouse_get_state s).1 ≠ 0 ↔
      (s.mouse_buttons ≠ 0 ∨ s.mouse_x % 256 ≠ 0 ∨ s.mouse_y % 256 ≠ 0)) ∧
    ((mouse_get_state s).1 = 0 ∨ (mouse_get_state s).1 = 1) := by
  have hx := u8_neg_eq_zero s.mouse_x
  have hy := u8_neg_eq_zero s.mouse_y
  have hrv : (mouse_get_state s).1
      = if s.mouse_buttons ≠ 0 ∨ u8 (-s.mouse_x) ≠ 0 ∨ u8 (-s.mouse_y) ≠ 0 then 1 else 0 := rfl
  rw [hrv]
  by_cases h : s.mouse_buttons ≠ 0 ∨ u8 (-s.mouse_x) ≠ 0 ∨ u8 (-s.mouse_y) ≠ 0
  · rw [if_pos h]
    refine ⟨⟨fun _ => ?_, fun _ => by decide⟩, Or.inr rfl⟩
    rcases h with h | h | h
    · exact Or.inl h
    · exact Or.inr (Or.inl (fun h0 => h (hx.mpr h0)))
    · exact Or.inr (Or.inr (fun h0 => h (hy.mpr h0)))
  · rw [if_neg h]
    refine ⟨⟨fun h0 => absurd rfl h0, fun h1 => ?_⟩, Or.inl rfl⟩
    exfalso
    apply h
    rcases h1 with h1 | h1 | h1
    · exact Or.inl h1
    · exact Or.inr (Or.inl (fun h0 => h1 (hx.mp h0)))
    · exact Or.inr (Or.inr (fun h0 => h1 (hy.mp h0)))

theorem joystick_get_state_zero_or (q : Nat) :
    joystick_get_state q = 0 ∨
      (joystick_get_state q % 4096 = joystick_get_state q ∧
       4095 - joystick_get_state q % 4096 = 0xFFF ^^^ joystick_get_state q) := by
  by_cases h : joy_s q = 0
  · left
    simp [joystick_get_state, h]
  · right
    obtain ⟨h1, h2, h3, _⟩ := joystick_get_state_eq q h
    exact ⟨h2.trans h1.symm, by rw [h3, h1]⟩

theorem slotPause_zero_frame :
    (∀ i, i < 12 → slotPause ((Line.low, 18000) :: irFrameTail 0) i = 800) ∧
    (∀ i, 12 ≤ i → i < 24 → slotPause ((Line.low, 18000) :: irFrameTail 0) i = 2400) := by
  constructor
  · intro i hi
    interval_cases i <;> rfl
  · intro i h12 h24
    interval_cases i <;> rfl

theorem xor_seven (b : Nat) (hb : b < 8) : b ^^^ 0x7 = 7 - b := by
  interval_cases b <;> rfl

theorem frame_fields (t : State) (ht : t.mouse_buttons < 256) :
    frameButtons (mouse_get_state t).2.1 = t.mouse_buttons ^^^ 0x7 ∧
    frameX (mouse_get_state t).2.1 = u8 (-t.mouse_x) ∧
    frameY (mouse_get_state t).2.1 = u8 (-t.mouse_y) := by
  have hx := u8_lt (-t.mouse_x)
  have hy := u8_lt (-t.mouse_y)
  unfold frameButtons frameX frameY
  rw [mouse_get_state_frame t ht, Nat.shiftRight_eq_div_pow, Nat.shiftRight_eq_div_pow]
  generalize t.mouse_buttons ^^^ 0x7 = A
  omega

theorem shr_one (x : Int) : x >>> (1 : Int) = x / 2 := by
  cases x with
  | ofNat m =>
    have h := Int.shiftRight_coe_nat m 1
    simp only [Nat.cast_one, Nat.shiftRight_eq_div_pow, pow_one] at h
    simpa using h
  | negSucc m =>
    have h := Int.shiftRight_negSucc m 1
    simp only [Nat.cast_one, Nat.shiftRight_eq_div_pow, pow_one] at h
    rw [h, Int.negSucc_ediv m (by decide : (0 : Int) < 2)]
    have e : (m : Int).ediv 2 = (m : Int) / 2 := rfl
    rw [e]
    simp only [Int.negSucc_eq]
    omega

theorem leak_fixed (x : Int) (hx : -32768 ≤ x ∧ x ≤ 32767) :
    i16 (x - (x >>> 1) + 0) = x - (x >>> 1) ∧
    (i16 (x - (x >>> 1) + 0) = x ↔ (x = 0 ∨ x = 1)) := by
  rw [shr_one]
  unfold i16
  constructor
  · omega
  · omega

theorem postZero_fixed (n : Nat) : ∀ s : State,
    (s.mouse_x = 0 ∨ s.mouse_x = 1) → (s.mouse_y = 0 ∨ s.mouse_y = 1) →
    s.mouse_buttons < 256 →
    (postZero n s).mouse_x = s.mouse_x ∧ (postZero n s).mouse_y = s.mouse_y ∧
    (postZero n s).mouse_buttons = s.mouse_buttons := by
  induction n with
  | zero => intro s _ _ _; exact ⟨rfl, rfl, rfl⟩
  | succ n ih =>
    intro s hx hy hb
    have h1x : (mouse_set_state 0 0 0 s).mouse_x = s.mouse_x :=
      (leak_fixed s.mouse_x (by omega)).2.mpr hx
    have h1y : (mouse_set_state 0 0 0 s).mouse_y = s.mouse_y :=
      (leak_fixed s.mouse_y (by omega)).2.mpr hy
    have h1b : (mouse_set_state 0 0 0 s).mouse_buttons = s.mouse_buttons := by
      show (s.mouse_buttons ||| 0) % 256 = s.mouse_buttons
      rw [Nat.or_zero]
      exact Nat.mod_eq_of_lt hb
    obtain ⟨ix, iy, ib⟩ := ih (mouse_set_state 0 0 0 s) (by rw [h1x]; exact hx)
      (by rw [h1y]; exact hy) (by rw [h1b]; exact hb)
    show (postZero n (mouse_set_state 0 0 0 s)).mouse_x = s.mouse_x ∧
      (postZero n (mouse_set_state 0 0 0 s)).mouse_y = s.mouse_y ∧
      (postZero n (mouse_set_state 0 0 0 s)).mouse_buttons = s.mouse_buttons
    rw [ix, iy, ib, h1x, h1y, h1b]
    exact ⟨rfl, rfl, rfl⟩

theorem accRun_mask (n : Nat) (hn : n ≤ 8) : ∀ (ops : List AccOp) (s : State),
    s.mouse_buttons < 2 ^ n → (∀ o ∈ ops, AccOp.maskBelow n o) →
    (accRun ops s).mouse_buttons < 2 ^ n := by
  have h256 : 2 ^ n ≤ 256 := by
    calc 2 ^ n ≤ 2 ^ 8 := Nat.pow_le_pow_right (by decide) hn
      _ = 256 := by decide
  intro ops
  induction ops with
  | nil => intro s hs _; exact hs
  | cons o os ih =>
    intro s hs hall
    have ho := hall o (List.mem_cons_self _ _)
    have hrest : ∀ o' ∈ os, AccOp.maskBelow n o' :=
      fun o' h' => hall o' (List.mem_cons_of_mem _ h')
    apply ih _ _ hrest
    cases o with
    | post b x y =>
      show (s.mouse_buttons ||| b) % 256 < 2 ^ n
      have hor : s.mouse_buttons ||| b < 2 ^ n := Nat.or_lt_two_pow hs ho
      rw [Nat.mod_eq_of_lt (by omega)]
      exact hor
    | drain =>
      show 0 < 2 ^ n
      exact Nat.two_pow_pos n

theorem frame_bit18 (t : State) (ht : t.mouse_buttons < 8) :
    (mouse_get_state t).2.1 < 2 ^ 19 ∧
    (mouse_get_state t).2.1.testBit 18 = !t.mouse_buttons.testBit 2 ∧
    (t.mouse_buttons < 4 → (mouse_get_state t).2.1.testBit 18 = true) := by
  have hx := u8_lt (-t.mouse_x)
  have hy := u8_lt (-t.mouse_y)
  have hf := mouse_get_state_frame t (by omega)
  rw [xor_seven _ ht] at hf
  have h18 : (mouse_get_state t).2.1.testBit 18 = !t.mouse_buttons.testBit 2 := by
    rw [Nat.testBit_to_div_mod, Nat.testBit_to_div_mod, hf]
    by_cases hb : t.mouse_buttons < 4
    · have e1 : (65536 * (7 - t.mouse_buttons) + 256 * u8 (-t.mouse_x) + u8 (-t.mouse_y))
          / 2 ^ 18 % 2 = 1 := by omega
      have e2 : ¬ (t.mouse_buttons / 2 ^ 2 % 2 = 1) := by omega
      rw [decide_eq_true e1, decide_eq_false e2]
      rfl
    · have e1 : ¬ ((65536 * (7 - t.mouse_buttons) + 256 * u8 (-t.mouse_x) + u8 (-t.mouse_y))
          / 2 ^ 18 % 2 = 1) := by omega
      have e2 : t.mouse_buttons / 2 ^ 2 % 2 = 1 := by omega
      rw [decide_eq_false e1, decide_eq_true e2]
      rfl
  refine ⟨by rw [hf]; omega, h18, ?_⟩
  intro hb
  have e2 : ¬ (t.mouse_buttons / 2 ^ 2 % 2 = 1) := by omega
  rw [h18, Nat.testBit_to_div_mod, decide_eq_false e2]
  rfl

theorem slotPause_fullFrame (v : Nat) :
    (∀ i, i < 12 →
      slotPause ((Line.low, 18000) :: irFrameTail v) i
        = if v.testBit (11 - i) then 2400 else 800) ∧
    (∀ i, 12 ≤ i → i < 24 →
      slotPause ((Line.low, 18000) :: irFrameTail v) i
        = if v.testBit (23 - i) then 800 else 2400) := by
  constructor
  · intro i hi
    interval_cases i <;> rfl
  · intro i h12 h24
    interval_cases i <;> rfl

theorem testBit_compl12 (v j : Nat) (hj : j < 12) :
    (0xFFF ^^^ v).testBit j = !v.testBit j := by
  rw [Nat.testBit_xor]
  have h : Nat.testBit 0xFFF j = true := by
    interval_cases j <;> decide
  rw [h]
  cases v.testBit j <;> rfl

theorem tick_OCR1A (pinc : Nat) (s : State) :
    ((TIMER1_COMPA_vect pinc s).OCR1A = s.OCR1A ∧ s.tx_state = tx_idle ∧
      (TIMER1_COMPA_vect pinc s).CS11 = false ∧
      (TIMER1_COMPA_vect pinc s).tx_state = tx_idle) ∨
    (176 ≤ (TIMER1_COMPA_vect pinc s).OCR1A ∧ (TIMER1_COMPA_vect pinc s).OCR1A ≤ 48500) := by
  by_cases hidle : s.tx_state = tx_idle
  · by_cases hor : joystick_get_state pinc ≠ 0 ∨ s.joy_state ≠ 0
    · right
      rw [tick_idle_ir pinc s hidle hor]
      exact ⟨Nat.le_of_ble_eq_true rfl, Nat.le_of_ble_eq_true rfl⟩
    · have hn : joystick_get_state pinc = 0 := by
        by_contra h; exact hor (Or.inl h)
      have hj : s.joy_state = 0 := by
        by_contra h; exact hor (Or.inr h)
      rw [tick_idle_mouse pinc s hidle hn hj]
      by_cases hd : (mouse_get_state s).1 ≠ 0
      · right
        rw [if_pos hd]
        exact ⟨Nat.le_of_ble_eq_true rfl, Nat.le_of_ble_eq_true rfl⟩
      · left
        rw [if_neg hd]
        exact ⟨rfl, hidle, rfl, hidle⟩
  · right
    have h0 : s.tx_state ≠ 0 := hidle
    by_cases h96 : s.tx_state ≤ 96
    · by_cases hir : 2 ≤ s.tx_state ∧ s.tx_state < 50
      · rw [tick_ir_transmit pinc s s.tx_state hir.1 hir.2 rfl]
        show 176 ≤ irOCR s.joy_state s.tx_state ∧ irOCR s.joy_state s.tx_state ≤ 48500
        unfold irOCR
        split_ifs <;> omega
      · by_cases hm : 57 ≤ s.tx_state ∧ s.tx_state < 95
        · rw [tick_m_transmit pinc s s.tx_state hm.1 hm.2 rfl]
          show 176 ≤ mOCR s.mouse s.tx_state ∧ mOCR s.mouse s.tx_state ≤ 48500
          unfold mOCR
          split_ifs <;> omega
        · have hk : s.tx_state = 1 ∨ s.tx_state = 50 ∨ s.tx_state = 51 ∨ s.tx_state = 52 ∨
              s.tx_state = 53 ∨ s.tx_state = 54 ∨ s.tx_state = 55 ∨ s.tx_state = 56 ∨
              s.tx_state = 95 ∨ s.tx_state = 96 := by omega
          rcases hk with h | h | h | h | h | h | h | h | h | h <;>
            simp [TIMER1_COMPA_vect, h, tx_idle, ir_start, ir_transmit, ir_end_pulse, ir_stop,
              ir_repeat, ir_repeat_end_pulse, ir_repeat_stop, ir_repeat_stop2, m_start,
              m_transmit, m_stop]
    · have e : TIMER1_COMPA_vect pinc s =
          { s with line := Line.released, OCR1A := 28000, tx_state := tx_idle } := by
        unfold TIMER1_COMPA_vect
        rw [if_neg hidle, if_neg (by unfold m_start; omega),
          if_neg (by unfold m_start; omega), if_neg (by unfold m_stop m_transmit; omega),
          if_neg (by unfold m_stop m_transmit; omega)]
      rw [e]
      exact ⟨Nat.le_of_ble_eq_true rfl, Nat.le_of_ble_eq_true rfl⟩

theorem leak_step (x d : Int) (hx : -255 ≤ x ∧ x ≤ 254) (hd : -128 ≤ d ∧ d ≤ 127) :
    (-127 ≤ x - (x >>> 1) ∧ x - (x >>> 1) ≤ 127) ∧
    (-255 ≤ x - (x >>> 1) + d ∧ x - (x >>> 1) + d ≤ 254) ∧
    i16 (x - (x >>> 1) + d) = x - (x >>> 1) + d := by
  rw [shr_one]
  unfold i16
  omega

theorem accRun_bounds : ∀ (ops : List AccOp) (s : State),
    (-255 ≤ s.mouse_x ∧ s.mouse_x ≤ 254) → (-255 ≤ s.mouse_y ∧ s.mouse_y ≤ 254) →
    (∀ o ∈ ops, AccOp.valid o) →
    (-255 ≤ (accRun ops s).mouse_x ∧ (accRun ops s).mouse_x ≤ 254) ∧
    (-255 ≤ (accRun ops s).mouse_y ∧ (accRun ops s).mouse_y ≤ 254) := by
  intro ops
  induction ops with
  | nil => intro s hx hy _; exact ⟨hx, hy⟩
  | cons o os ih =>
    intro s hx hy hall
    have ho := hall o (List.mem_cons_self _ _)
    have hrest : ∀ o' ∈ os, AccOp.valid o' :=
      fun o' h' => hall o' (List.mem_cons_of_mem _ h')
    cases o with
    | post b x y =>
      obtain ⟨_, hx1, hx2, hy1, hy2⟩ := ho
      obtain ⟨_, bx, ex⟩ := leak_step s.mouse_x x hx ⟨hx1, hx2⟩
      obtain ⟨_, by', ey⟩ := leak_step s.mouse_y y hy ⟨hy1, hy2⟩
      apply ih (mouse_set_state b x y s) _ _ hrest
      · show -255 ≤ i16 (s.mouse_x - (s.mouse_x >>> 1) + x) ∧
          i16 (s.mouse_x - (s.mouse_x >>> 1) + x) ≤ 254
        rw [ex]; exact bx
      · show -255 ≤ i16 (s.mouse_y - (s.mouse_y >>> 1) + y) ∧
          i16 (s.mouse_y - (s.mouse_y >>> 1) + y) ≤ 254
        rw [ey]; exact by'
    | drain =>
      have z : (-255 : Int) ≤ 0 ∧ (0 : Int) ≤ 254 := ⟨by decide, by decide⟩
      exact ih (mouse_get_state s).2.2 z z hrest

theorem s8_u8_neg (x : Int) (hx : -127 ≤ x ∧ x ≤ 128) : s8 (u8 (-x)) = -x := by
  unfold s8 u8
  split_ifs <;> omega

theorem tick_nonidle_eq (p : Nat) (s : State) (h : s.tx_state ≠ tx_idle) :
    TIMER1_COMPA_vect p s =
      { s with line := outLine s.tx_state s.line,
               OCR1A := outOCR s.tx_state s.joy_state s.mouse,
               tx_state := nextTx s.tx_state } := by
  have h0 : s.tx_state ≠ 0 := h
  by_cases h96 : s.tx_state ≤ 96
  · by_cases hir : 2 ≤ s.tx_state ∧ s.tx_state < 50
    · rw [tick_ir_transmit p s s.tx_state hir.1 hir.2 rfl]
      have e1 : ¬ s.tx_state = 1 := by omega
      have e2 : ¬ (s.tx_state = 51 ∨ s.tx_state = 55 ∨ 96 ≤ s.tx_state) := by omega
      simp only [outLine, outOCR, nextTx, if_neg e1, if_pos hir.2, if_neg e2]
    · by_cases hm : 57 ≤ s.tx_state ∧ s.tx_state < 95
      · rw [tick_m_transmit p s s.tx_state hm.1 hm.2 rfl]
        have e2 : ¬ (s.tx_state = 51 ∨ s.tx_state = 55 ∨ 96 ≤ s.tx_state) := by omega
        simp only [outLine, outOCR, nextTx, if_neg e2, if_pos hm.2,
          if_neg (show ¬ s.tx_state = 1 by omega), if_neg (show ¬ s.tx_state < 50 by omega),
          if_neg (show ¬ s.tx_state = 50 by omega), if_neg (show ¬ s.tx_state = 51 by omega),
          if_neg (show ¬ s.tx_state = 52 by omega), if_neg (show ¬ s.tx_state = 53 by omega),
          if_neg (show ¬ s.tx_state = 54 by omega), if_neg (show ¬ s.tx_state = 55 by omega),
          if_neg (show ¬ s.tx_state = 56 by omega)]
      · have hk : s.tx_state = 1 ∨ s.tx_state = 50 ∨ s.tx_state = 51 ∨ s.tx_state = 52 ∨
            s.tx_state = 53 ∨ s.tx_state = 54 ∨ s.tx_state = 55 ∨ s.tx_state = 56 ∨
            s.tx_state = 95 ∨ s.tx_state = 96 := by omega
        rcases hk with h | h | h | h | h | h | h | h | h | h <;>
          simp [TIMER1_COMPA_vect, h, tx_idle, ir_start, ir_transmit, ir_end_pulse, ir_stop,
            ir_repeat, ir_repeat_end_pulse, ir_repeat_stop, ir_repeat_stop2, m_start,
            m_transmit, m_stop, outLine, outOCR, nextTx]
  · have e : TIMER1_COMPA_vect p s =
        { s with line := Line.released, OCR1A := 28000, tx_state := tx_idle } := by
      unfold TIMER1_COMPA_vect
      rw [if_neg h, if_neg (by unfold m_start; omega),
        if_neg (by unfold m_start; omega), if_neg (by unfold m_stop m_transmit; omega),
        if_neg (by unfold m_stop m_transmit; omega)]
    rw [e]
    have e2 : s.tx_state = 51 ∨ s.tx_state = 55 ∨ 96 ≤ s.tx_state := by omega
    simp only [outLine, outOCR, nextTx, if_pos e2, tx_idle,
      if_neg (show ¬ s.tx_state = 1 by omega), if_neg (show ¬ s.tx_state < 50 by omega),
      if_neg (show ¬ s.tx_state = 50 by omega), if_neg (show ¬ s.tx_state = 51 by omega),
      if_neg (show ¬ s.tx_state = 52 by omega), if_neg (show ¬ s.tx_state = 53 by omega),
      if_neg (show ¬ s.tx_state = 54 by omega), if_neg (show ¬ s.tx_state = 55 by omega),
      if_neg (show ¬ s.tx_state = 56 by omega), if_neg (show ¬ s.tx_state < 95 by omega),
      if_neg (show ¬ s.tx_state = 95 by omega)]

theorem frameLen_next (k : Nat) (hk : k ≠ 0) : frameLen (nextTx k) + 1 = frameLen k := by
  by_cases hc : k = 51 ∨ k = 55 ∨ 96 ≤ k
  · have e : nextTx k = 0 := by unfold nextTx; rw [if_pos hc]
    rw [e]
    unfold frameLen
    split_ifs <;> omega
  · have e : nextTx k = k + 1 := by unfold nextTx; rw [if_neg hc]
    rw [e]
    unfold frameLen
    split_ifs <;> first | omega | contradiction

theorem frameLen_pos (k : Nat) (h : 0 < frameLen k) : k ≠ 0 := by
  intro hk
  rw [hk] at h
  exact absurd h (by decide)

theorem outLine_indep (k : Nat) (l l' : Line) (hk : k ≠ 55) : outLine k l = outLine k l' := by
  unfold outLine
  simp only [if_neg hk]

theorem tick_frame_step (p q : Nat) (s t : State)
    (ht : s.tx_state = t.tx_state) (hj : s.joy_state = t.joy_state)
    (hm : s.mouse = t.mouse) (hl : s.tx_state = ir_repeat_stop2 → s.line = t.line)
    (h0 : s.tx_state ≠ tx_idle) :
    (TIMER1_COMPA_vect p s).tx_state = (TIMER1_COMPA_vect q t).tx_state ∧
    (TIMER1_COMPA_vect p s).joy_state = (TIMER1_COMPA_vect q t).joy_state ∧
    (TIMER1_COMPA_vect p s).mouse = (TIMER1_COMPA_vect q t).mouse ∧
    (TIMER1_COMPA_vect p s).line = (TIMER1_COMPA_vect q t).line ∧
    (TIMER1_COMPA_vect p s).OCR1A = (TIMER1_COMPA_vect q t).OCR1A ∧
    (TIMER1_COMPA_vect p s).tx_state = nextTx s.tx_state := by
  have h0' : t.tx_state ≠ tx_idle := by rw [← ht]; exact h0
  have hline : outLine s.tx_state s.line = outLine t.tx_state t.line := by
    rw [← ht]
    by_cases hk : s.tx_state = 55
    · rw [hl hk]
    · exact outLine_indep _ _ _ hk
  rw [tick_nonidle_eq p s h0, tick_nonidle_eq q t h0']
  refine ⟨?_, hj, hm, hline, ?_, rfl⟩
  · show nextTx s.tx_state = nextTx t.tx_state
    rw [ht]
  · show outOCR s.tx_state s.joy_state s.mouse = outOCR t.tx_state t.joy_state t.mouse
    rw [ht, hj, hm]

theorem wave_frame : ∀ (es : List Event) (s t : State),
    s.tx_state = t.tx_state → s.joy_state = t.joy_state → s.mouse = t.mouse →
    (s.tx_state = ir_repeat_stop2 → s.line = t.line) →
    tickCount es ≤ frameLen s.tx_state →
    wave es s = segments (List.replicate (tickCount es) 0) t ∧
    (exec es s).tx_state = (ticks (List.replicate (tickCount es) 0) t).tx_state ∧
    (exec es s).joy_state = (ticks (List.replicate (tickCount es) 0) t).joy_state ∧
    (exec es s).mouse = (ticks (List.replicate (tickCount es) 0) t).mouse := by
  intro es
  induction es with
  | nil => intro s t ht hj hm _ _; exact ⟨rfl, ht, hj, hm⟩
  | cons e es ih =>
    intro s t ht hj hm hl hn
    cases e with
    | tick p =>
      have hn' : tickCount es + 1 ≤ frameLen s.tx_state := hn
      have h0 : s.tx_state ≠ tx_idle := frameLen_pos _ (by omega)
      obtain ⟨a1, a2, a3, a4, a5, a6⟩ := tick_frame_step p 0 s t ht hj hm hl h0
      have hlen := frameLen_next s.tx_state h0
      obtain ⟨i1, i2⟩ := ih (TIMER1_COMPA_vect p s) (TIMER1_COMPA_vect 0 t) a1 a2 a3
        (fun _ => a4) (by rw [a6]; omega)
      refine ⟨?_, i2⟩
      show ((TIMER1_COMPA_vect p s).line, (TIMER1_COMPA_vect p s).OCR1A)
          :: wave es (TIMER1_COMPA_vect p s)
        = ((TIMER1_COMPA_vect 0 t).line, (TIMER1_COMPA_vect 0 t).OCR1A)
          :: segments (List.replicate (tickCount es) 0) (TIMER1_COMPA_vect 0 t)
      rw [i1, a4, a5]
    | post b x y =>
      exact ih (mouse_set_state b x y s) t ht hj hm hl hn
    | pinchange =>
      exact ih (PCINT1_vect s) t ht hj hm hl hn

theorem acc_frame : ∀ (es : List Event) (s t : State),
    s.mouse_x = t.mouse_x → s.mouse_y = t.mouse_y → s.mouse_buttons = t.mouse_buttons →
    tickCount es ≤ frameLen s.tx_state →
    (exec es s).mouse_x = (skipTicks es t).mouse_x ∧
    (exec es s).mouse_y = (skipTicks es t).mouse_y ∧
    (exec es s).mouse_buttons = (skipTicks es t).mouse_buttons := by
  intro es
  induction es with
  | nil => intro s t hx hy hb _; exact ⟨hx, hy, hb⟩
  | cons e es ih =>
    intro s t hx hy hb hn
    cases e with
    | tick p =>
      have hn' : tickCount es + 1 ≤ frameLen s.tx_state := hn
      have h0 : s.tx_state ≠ tx_idle := frameLen_pos _ (by omega)
      have hlen := frameLen_next s.tx_state h0
      have e := tick_nonidle_eq p s h0
      apply ih (TIMER1_COMPA_vect p s) t
      · rw [e]; exact hx
      · rw [e]; exact hy
      · rw [e]; exact hb
      · rw [e]
        show tickCount es ≤ frameLen (nextTx s.tx_state)
        omega
    | post b x y =>
      apply ih (mouse_set_state b x y s) (mouse_set_state b x y t)
      · show i16 (s.mouse_x - (s.mouse_x >>> 1) + x) = i16 (t.mouse_x - (t.mouse_x >>> 1) + x)
        rw [hx]
      · show i16 (s.mouse_y - (s.mouse_y >>> 1) + y) = i16 (t.mouse_y - (t.mouse_y >>> 1) + y)
        rw [hy]
      · show (s.mouse_buttons ||| b) % 256 = (t.mouse_buttons ||| b) % 256
        rw [hb]
      · exact hn
    | pinchange =>
      exact ih (PCINT1_vect s) (PCINT1_vect t) hx hy hb hn

/-- The line is released in the idle state and in the second hold state of the
repeat frame: kept by every event. -/
theorem line_inv_step (e : Event) (s : State)
    (h : (s.tx_state = tx_idle ∨ s.tx_state = ir_repeat_stop2) → s.line = Line.released) :
    ((step e s).tx_state = tx_idle ∨ (step e s).tx_state = ir_repeat_stop2) →
      (step e s).line = Line.released := by
  cases e with
  | tick p =>
    show ((TIMER1_COMPA_vect p s).tx_state = tx_idle ∨
      (TIMER1_COMPA_vect p s).tx_state = ir_repeat_stop2) →
      (TIMER1_COMPA_vect p s).line = Line.released
    by_cases hidle : s.tx_state = tx_idle
    · by_cases hor : joystick_get_state p ≠ 0 ∨ s.joy_state ≠ 0
      · rw [tick_idle_ir p s hidle hor]
        intro hk
        exfalso
        rcases hk with hk | hk
        · split_ifs at hk <;> simp [ir_repeat, ir_start, tx_idle] at hk
        · split_ifs at hk <;> simp [ir_repeat, ir_start, ir_repeat_stop2] at hk
      · have hn : joystick_get_state p = 0 := by
          by_contra h'; exact hor (Or.inl h')
        have hj : s.joy_state = 0 := by
          by_contra h'; exact hor (Or.inr h')
        rw [tick_idle_mouse p s hidle hn hj]
        split_ifs
        · intro hk
          exfalso
          rcases hk with hk | hk
          · simp [m_start, tx_idle] at hk
          · simp [m_start, ir_repeat_stop2] at hk
        · intro _
          exact h (Or.inl hidle)
    · rw [tick_nonidle_eq p s hidle]
      have h0 : s.tx_state ≠ 0 := hidle
      intro hk
      have hk' : nextTx s.tx_state = 0 ∨ nextTx s.tx_state = 55 := hk
      show outLine s.tx_state s.line = Line.released
      have hcases : s.tx_state = 51 ∨ s.tx_state = 54 ∨ s.tx_state = 55 ∨ 96 ≤ s.tx_state := by
        by_cases hc : s.tx_state = 51 ∨ s.tx_state = 55 ∨ 96 ≤ s.tx_state
        · omega
        · have e : nextTx s.tx_state = s.tx_state + 1 := by unfold nextTx; rw [if_neg hc]
          rw [e] at hk'
          omega
      rcases hcases with c | c | c | c
      · rw [c]; rfl
      · rw [c]; rfl
      · have hl := h (Or.inr c)
        rw [c, hl]; rfl
      · unfold outLine
        simp only [if_neg (show ¬ s.tx_state = 1 by omega),
          if_neg (show ¬ s.tx_state < 50 by omega),
          if_neg (show ¬ s.tx_state = 50 by omega), if_neg (show ¬ s.tx_state = 51 by omega),
          if_neg (show ¬ s.tx_state = 52 by omega), if_neg (show ¬ s.tx_state = 53 by omega),
          if_neg (show ¬ s.tx_state = 54 by omega), if_neg (show ¬ s.tx_state = 55 by omega),
          if_neg (show ¬ s.tx_state = 56 by omega), if_neg (show ¬ s.tx_state < 95 by omega),
          if_neg (show ¬ s.tx_state = 95 by omega)]
  | post b x y => exact h
  | pinchange => exact h

theorem line_inv_exec : ∀ (es : List Event) (s : State),
    ((s.tx_state = tx_idle ∨ s.tx_state = ir_repeat_stop2) → s.line = Line.released) →
    (((exec es s).tx_state = tx_idle ∨ (exec es s).tx_state = ir_repeat_stop2) →
      (exec es s).line = Line.released) := by
  intro es
  induction es with
  | nil => intro s h; exact h
  | cons e es ih => intro s h; exact ih (step e s) (line_inv_step e s h)

theorem line_inv_init :
    (cdtv_init.tx_state = tx_idle ∨ cdtv_init.tx_state = ir_repeat_stop2) →
      cdtv_init.line = Line.released :=
  fun _ => rfl

/-! ## The claims -/

/-- C1: when an idle run of the timer routine samples a non-zero six-bit value
`joy_s pinc` while the stored value differs, it starts a full frame, and the 24
pauses of that frame read, most-significant bit first with 2400 ticks as 1 and
800 ticks as 0, `0x800 | (joy_s << 2)` in slots 0..11 and its complement within
12 bits in slots 12..23; for the sample `0x05` the groups are `0x814` and `0x7EB`. -/
theorem C1_full_frame_payload (pinc : Nat) (ps : List Nat) (s : State)
    (hidle : s.tx_state = tx_idle) (hs : joy_s pinc ≠ 0)
    (hdiff : s.joy_state ≠ joystick_get_state pinc) (hlen : ps.length = 51) :
    (TIMER1_COMPA_vect pinc s).tx_state = ir_start ∧
    firstGroup (segments (pinc :: ps) s) = some (0x800 ||| (joy_s pinc <<< 2)) ∧
    secondGroup (segments (pinc :: ps) s)
      = some (0xFFF ^^^ (0x800 ||| (joy_s pinc <<< 2))) ∧
    (joy_s pinc = 0x05 →
      firstGroup (segments (pinc :: ps) s) = some 0x814 ∧
      secondGroup (segments (pinc :: ps) s) = some 0x7EB) := by
  obtain ⟨_, hv, hc, hnz⟩ := joystick_get_state_eq pinc hs
  have hne : joystick_get_state pinc ≠ s.joy_state := fun h => hdiff h.symm
  obtain ⟨hseg, _⟩ := run_full_frame pinc ps s hidle hne hlen
  have hstart : (TIMER1_COMPA_vect pinc s).tx_state = ir_start := by
    rw [tick_idle_ir pinc s hidle (Or.inl hnz)]
    simp [hne]
  have h1 : firstGroup (segments (pinc :: ps) s) = some (0x800 ||| (joy_s pinc <<< 2)) := by
    rw [hseg, firstGroup_fullFrame, hv]
  have h2 : secondGroup (segments (pinc :: ps) s)
      = some (0xFFF ^^^ (0x800 ||| (joy_s pinc <<< 2))) := by
    rw [hseg, secondGroup_fullFrame, hc]
  refine ⟨hstart, h1, h2, ?_⟩
  intro h5
  rw [h1, h2, h5]
  exact ⟨rfl, rfl⟩

/-- C1 at the port value `0xFA` (sample `0x05`) from the state after `cdtv_init`. -/
theorem C1_full_frame_payload_witness :
    cdtv_init.tx_state = tx_idle ∧ joy_s 0xFA = 0x05 ∧
    firstGroup (segments (0xFA :: List.replicate 51 0) cdtv_init) = some 0x814 ∧
    secondGroup (segments (0xFA :: List.replicate 51 0) cdtv_init) = some 0x7EB :=
  ⟨rfl, by decide,
    ((C1_full_frame_payload 0xFA (List.replicate 51 0) cdtv_init rfl (by decide) (by decide)
      (by simp)).2.2.2 (by decide)).1,
    ((C1_full_frame_payload 0xFA (List.replicate 51 0) cdtv_init rfl (by decide) (by decide)
      (by simp)).2.2.2 (by decide)).2⟩

/-- C2: an infra-red full frame started from idle programs exactly 52 segments:
line low 18000 ticks, released 9000, then 24 slots of line low 800 followed by
released 800 or 2400, then line low 800, then released 34600; the transmit state
is non-idle after each of the first 51 runs and idle after the 52nd. -/
theorem C2_full_frame_segments (pinc : Nat) (ps : List Nat) (s : State)
    (hidle : s.tx_state = tx_idle) (hdiff : joystick_get_state pinc ≠ s.joy_state)
    (hlen : ps.length = 51) :
    (∃ pauses : List Nat, pauses.length = 24 ∧ (∀ d ∈ pauses, d = 800 ∨ d = 2400) ∧
      segments (pinc :: ps) s =
        [(Line.low, 18000), (Line.released, 9000)]
          ++ pauses.flatMap (fun d => [(Line.low, 800), (Line.released, d)])
          ++ [(Line.low, 800), (Line.released, 34600)]) ∧
    (segments (pinc :: ps) s).length = 52 ∧
    (∀ n, 0 < n → n < 52 → (ticks ((pinc :: ps).take n) s).tx_state ≠ tx_idle) ∧
    (ticks (pinc :: ps) s).tx_state = tx_idle ∧
    (ticks (pinc :: ps) s).joy_state = joystick_get_state pinc := by
  obtain ⟨hseg, hfin⟩ := run_full_frame pinc ps s hidle hdiff hlen
  refine ⟨⟨(List.range' 0 24).map (fun i => irOCR (joystick_get_state pinc) (3 + 2 * i)),
    by simp, ?_, ?_⟩, ?_, ?_, ?_, ?_⟩
  · intro d hd
    simp only [List.mem_map, List.mem_range'_1] at hd
    obtain ⟨i, ⟨_, hi⟩, rfl⟩ := hd
    unfold irOCR
    split_ifs <;> omega
  · rw [hseg]
    simp [irFrameTail, List.range', irLine, irOCR, List.flatMap]
  · rw [hseg]
    simp [irFrameTail]
  · intro n hn0 hn52
    obtain ⟨m, rfl⟩ : ∃ m, n = m + 1 := ⟨n - 1, by omega⟩
    have hor : joystick_get_state pinc ≠ 0 ∨ s.joy_state ≠ 0 := by
      by_cases h0 : joystick_get_state pinc = 0
      · right; intro hj; exact hdiff (by rw [h0, hj])
      · left; exact h0
    have h1 : (TIMER1_COMPA_vect pinc s).tx_state = 1 := by
      rw [tick_idle_ir pinc s hidle hor]
      simp [hdiff, ir_start]
    have := ticks_ir_count m 1 (ps.take m) (TIMER1_COMPA_vect pinc s) (by omega) (by omega)
      (by simp; omega) h1
    simp only [List.take_succ_cons, ticks, tx_idle]
    omega
  · rw [hfin]
  · rw [hfin]

/-- C2 at the port value `0xFA` from the state after `cdtv_init`. -/
theorem C2_full_frame_segments_witness :
    cdtv_init.tx_state = tx_idle ∧ joystick_get_state 0xFA ≠ cdtv_init.joy_state ∧
    (segments (0xFA :: List.replicate 51 0) cdtv_init).length = 52 ∧
    (ticks (0xFA :: List.replicate 51 0) cdtv_init).tx_state = tx_idle :=
  ⟨rfl, by decide,
    (C2_full_frame_segments 0xFA (List.replicate 51 0) cdtv_init rfl (by decide)
      (by simp)).2.1,
    (C2_full_frame_segments 0xFA (List.replicate 51 0) cdtv_init rfl (by decide)
      (by simp)).2.2.2.1⟩

/-- C3: the compare values programmed during one infra-red full frame started
from idle sum to 120000 ticks (60000 us): 85400 ticks (42700 us) for the first 51
segments and a final released segment of 34600 ticks (17300 us); the same sum
results from the start pulse and the 51 following runs for every stored
`joy_state`, whatever its value. -/
theorem C3_full_frame_total (pinc : Nat) (ps : List Nat) (s : State)
    (hidle : s.tx_state = tx_idle) (hdiff : joystick_get_state pinc ≠ s.joy_state)
    (hlen : ps.length = 51) :
    total (segments (pinc :: ps) s) = 120000 ∧
    total ((segments (pinc :: ps) s).take 51) = 2 * 42700 ∧
    (segments (pinc :: ps) s).drop 51 = [(Line.released, 2 * 17300)] ∧
    (ticks (pinc :: ps) s).tx_state = tx_idle ∧
    (∀ (t : State) (qs : List Nat), t.tx_state = ir_start → qs.length = 51 →
      18000 + total (segments qs t) = 120000 ∧ (ticks qs t).tx_state = tx_idle) := by
  obtain ⟨hseg, hfin⟩ := run_full_frame pinc ps s hidle hdiff hlen
  refine ⟨?_, ?_, ?_, ?_, ?_⟩
  · rw [hseg, total_fullFrame]
  · rw [hseg, fullFrame_split, List.take_left' (by simp), content_fullFrame]
  · rw [hseg, fullFrame_split, List.drop_left' (by simp)]
  · rw [hfin]
  · intro t qs ht hq
    obtain ⟨hseg2, hfin2⟩ := run_ir_frame qs t ht hq
    have := total_fullFrame t.joy_state
    rw [total_cons] at this
    rw [hseg2, hfin2]
    exact ⟨this, rfl⟩

/-- C3 at the port value `0xFA` from the state after `cdtv_init`. -/
theorem C3_full_frame_total_witness :
    cdtv_init.tx_state = tx_idle ∧ joystick_get_state 0xFA ≠ cdtv_init.joy_state ∧
    total (segments (0xFA :: List.replicate 51 0) cdtv_init) = 120000 :=
  ⟨rfl, by decide,
    (C3_full_frame_total 0xFA (List.replicate 51 0) cdtv_init rfl (by decide) (by simp)).1⟩

/-- C4: an infra-red repeat frame started from idle programs exactly five
segments whatever the inputs during the frame: line low 18000 ticks, released
4200, low 800, released 48500 and again 48500 with the line still released; the
transmit state is non-idle in between and idle afterwards, and the compare
values sum to 120000 ticks: 23000 (11500 us) of content and 97000 (48500 us) of
pad. -/
theorem C4_repeat_frame (pinc : Nat) (ps : List Nat) (s : State)
    (hidle : s.tx_state = tx_idle) (hnz : joystick_get_state pinc ≠ 0)
    (heq : joystick_get_state pinc = s.joy_state) (hlen : ps.length = 4) :
    segments (pinc :: ps) s =
      [(Line.low, 18000), (Line.released, 4200), (Line.low, 800), (Line.released, 48500),
        (Line.released, 48500)] ∧
    (∀ n, 0 < n → n < 5 → (ticks ((pinc :: ps).take n) s).tx_state ≠ tx_idle) ∧
    (ticks (pinc :: ps) s).tx_state = tx_idle ∧
    total (segments (pinc :: ps) s) = 120000 ∧
    total ((segments (pinc :: ps) s).take 3) = 2 * 11500 ∧
    total ((segments (pinc :: ps) s).drop 3) = 2 * 48500 := by
  obtain ⟨hseg, hfin, hmid⟩ := run_repeat_frame pinc ps s hidle hnz heq hlen
  refine ⟨hseg, hmid, ?_, ?_, ?_, ?_⟩
  · rw [hfin]; exact hidle
  · rw [hseg]; rfl
  · rw [hseg]; rfl
  · rw [hseg]; rfl

/-- C4 at the port value `0xFA` when the stored value is already `0x814`. -/
theorem C4_repeat_frame_witness :
    joystick_get_state 0xFA ≠ 0 ∧
    segments (0xFA :: List.replicate 4 0xFF) { cdtv_init with joy_state := 0x814 } =
      [(Line.low, 18000), (Line.released, 4200), (Line.low, 800), (Line.released, 48500),
        (Line.released, 48500)] :=
  ⟨by decide,
    (C4_repeat_frame 0xFA (List.replicate 4 0xFF) { cdtv_init with joy_state := 0x814 } rfl
      (by decide) (by decide) (by simp)).1⟩

/-- C5: a motion frame started from idle programs exactly 42 segments: line low
2200 ticks, released 750, then for k = 0..18 with b = bit (18 - k) of the drained
frame m: line low 1000 (b = 1) or 276 (b = 0) followed by released 750 (b = 1) or
1470 (b = 0), then line low 176, then released 28000; the transmit state is
non-idle in between and idle afterwards, and the segments that follow the start
pulse depend only on the low 19 bits of the captured frame. -/
theorem C5_motion_frame (pinc : Nat) (ps : List Nat) (s : State)
    (hidle : s.tx_state = tx_idle) (hp : joystick_get_state pinc = 0)
    (hj : s.joy_state = 0) (hdata : (mouse_get_state s).1 ≠ 0) (hlen : ps.length = 41) :
    segments (pinc :: ps) s =
      [(Line.low, 2200), (Line.released, 750)]
        ++ (List.range' 0 19).flatMap (fun k =>
            [(Line.low, if (mouse_get_state s).2.1.testBit (18 - k) then 1000 else 276),
             (Line.released, if (mouse_get_state s).2.1.testBit (18 - k) then 750 else 1470)])
        ++ [(Line.low, 176), (Line.released, 28000)] ∧
    (segments (pinc :: ps) s).length = 42 ∧
    (∀ n, 0 < n → n < 42 → (ticks ((pinc :: ps).take n) s).tx_state ≠ tx_idle) ∧
    (ticks (pinc :: ps) s).tx_state = tx_idle ∧
    (∀ (t t' : State) (qs qs' : List Nat), t.tx_state = m_start → t'.tx_state = m_start →
      qs.length = 41 → qs'.length = 41 → t.mouse % 2 ^ 19 = t'.mouse % 2 ^ 19 →
      segments qs t = segments qs' t') := by
  obtain ⟨hseg, hfin⟩ := run_motion_frame pinc ps s hidle hp hj hdata hlen
  refine ⟨?_, ?_, ?_, ?_, ?_⟩
  · rw [hseg, mFrame_explicit]
  · rw [hseg]
    simp [mFrameTail]
  · intro n hn0 hn42
    obtain ⟨k, rfl⟩ : ∃ k, n = k + 1 := ⟨n - 1, by omega⟩
    have h1 : (TIMER1_COMPA_vect pinc s).tx_state = 56 := by
      rw [tick_idle_mouse pinc s hidle hp hj, if_pos hdata]
      rfl
    have := ticks_m_count k 56 (ps.take k) (TIMER1_COMPA_vect pinc s) (by omega) (by omega)
      (by simp; omega) h1
    simp only [List.take_succ_cons, ticks, tx_idle]
    omega
  · rw [hfin]
  · intro t t' qs qs' ht ht' hq hq' hm
    rw [(run_m_frame qs t ht hq).1, (run_m_frame qs' t' ht' hq').1, ← mFrameTail_mod t.mouse,
      ← mFrameTail_mod t'.mouse, hm]

/-- C5 after `mouse_set_state(0b011, 5, -3)` on the state left by `cdtv_init`. -/
theorem C5_motion_frame_witness :
    joystick_get_state 0xFF = 0 ∧
    (mouse_get_state (mouse_set_state 3 5 (-3) cdtv_init)).1 ≠ 0 ∧
    (segments (0xFF :: List.replicate 41 0) (mouse_set_state 3 5 (-3) cdtv_init)).length = 42 ∧
    (ticks (0xFF :: List.replicate 41 0) (mouse_set_state 3 5 (-3) cdtv_init)).tx_state
      = tx_idle :=
  ⟨by decide, by decide,
    (C5_motion_frame 0xFF (List.replicate 41 0) (mouse_set_state 3 5 (-3) cdtv_init) rfl
      (by decide) rfl (by decide) (by simp)).2.1,
    (C5_motion_frame 0xFF (List.replicate 41 0) (mouse_set_state 3 5 (-3) cdtv_init) rfl
      (by decide) rfl (by decide) (by simp)).2.2.2.1⟩

/-- C6: the compare values programmed during one motion frame sum to
2200 + 750 + (the 19 data slots) + 176 + 28000 ticks, where the slot of a 1-bit
takes 1750 ticks (875 us) and the slot of a 0-bit 1746 ticks (873 us); the total is
64300 + 4 * (number of set bits among bits 0..18 of the frame) ticks, and the
totals of any two motion frames differ by at most 76 ticks (38 us). -/
theorem C6_motion_frame_total (pinc : Nat) (ps : List Nat) (s : State)
    (hidle : s.tx_state = tx_idle) (hp : joystick_get_state pinc = 0)
    (hj : s.joy_state = 0) (hdata : (mouse_get_state s).1 ≠ 0) (hlen : ps.length = 41) :
    (∀ k, k < 19 →
      ((segments (pinc :: ps) s).getD (2 + 2 * k) (Line.low, 0)).2
        + ((segments (pinc :: ps) s).getD (3 + 2 * k) (Line.low, 0)).2
        = if (mouse_get_state s).2.1.testBit (18 - k) then 1750 else 1746) ∧
    total (segments (pinc :: ps) s)
      = 2200 + 750 + (19 * 1746 + 4 * popcount19 (mouse_get_state s).2.1) + 176 + 28000 ∧
    total (segments (pinc :: ps) s) = 64300 + 4 * popcount19 (mouse_get_state s).2.1 ∧
    (∀ (pinc' : Nat) (ps' : List Nat) (s' : State), s'.tx_state = tx_idle →
      joystick_get_state pinc' = 0 → s'.joy_state = 0 → (mouse_get_state s').1 ≠ 0 →
      ps'.length = 41 →
      total (segments (pinc :: ps) s) ≤ total (segments (pinc' :: ps') s') + 76) := by
  obtain ⟨hseg, _⟩ := run_motion_frame pinc ps s hidle hp hj hdata hlen
  have htot : total (segments (pinc :: ps) s)
      = 64300 + 4 * popcount19 (mouse_get_state s).2.1 := by
    rw [hseg, total_mFrame]
  refine ⟨?_, ?_, htot, ?_⟩
  · intro k hk
    rw [hseg]
    interval_cases k <;>
      simp only [mFrameTail, List.range', List.map, List.getD_cons_succ, List.getD_cons_zero,
        List.cons_append, mOCR, mLine, Nat.reduceMul, Nat.reduceAdd, Nat.reduceMod,
        Nat.reduceSub, Nat.reduceDiv, Nat.reduceEqDiff, if_true, if_false,
        OfNat.ofNat_ne_zero, one_ne_zero] <;>
      split_ifs <;> rfl
  · rw [htot]; omega
  · intro pinc' ps' s' hidle' hp' hj' hdata' hlen'
    obtain ⟨hseg', _⟩ := run_motion_frame pinc' ps' s' hidle' hp' hj' hdata' hlen'
    rw [htot, hseg', total_mFrame]
    have := popcount19_le (mouse_get_state s).2.1
    omega

/-- C6 after `mouse_set_state(0b011, 5, -3)` on the state left by `cdtv_init`:
the frame `0x4FB03` has 10 set bits, the total is 64340 ticks. -/
theorem C6_motion_frame_total_witness :
    (mouse_get_state (mouse_set_state 3 5 (-3) cdtv_init)).1 ≠ 0 ∧
    total (segments (0xFF :: List.replicate 41 0) (mouse_set_state 3 5 (-3) cdtv_init))
      = 64300 + 4 * popcount19 (mouse_get_state (mouse_set_state 3 5 (-3) cdtv_init)).2.1 :=
  ⟨by decide,
    (C6_motion_frame_total 0xFF (List.replicate 41 0) (mouse_set_state 3 5 (-3) cdtv_init) rfl
      (by decide) rfl (by decide) (by simp)).2.2.1⟩

/-- C7: branch taken by the idle run of the timer routine, for the fresh sample
`n = joystick_get_state pinc` and the stored sample `j = joy_state`: `n ≠ 0`,
`n ≠ j` starts a full frame (line low, 18000 ticks) and stores `n`; `n ≠ 0`,
`n = j` starts a repeat frame (line low, 18000 ticks); `n = 0`, `j ≠ 0` starts a
full frame and stores 0; `n = 0`, `j = 0` drains the accumulator and starts a
motion frame (line low, 2200 ticks) iff the drain reports data, otherwise clears
`CS11` and stays idle.  A repeat frame starts only if `n ≠ 0` and `n = j`, a
motion frame only if `n = j = 0` and the mask or a counter low byte is non-zero. -/
theorem C7_idle_branch (pinc : Nat) (s : State) (hidle : s.tx_state = tx_idle) :
    (joystick_get_state pinc ≠ 0 → joystick_get_state pinc ≠ s.joy_state →
      TIMER1_COMPA_vect pinc s =
        { s with tx_state := ir_start, joy_state := joystick_get_state pinc,
                 line := Line.low, OCR1A := 18000, TCNT1 := 0 }) ∧
    (joystick_get_state pinc ≠ 0 → joystick_get_state pinc = s.joy_state →
      TIMER1_COMPA_vect pinc s =
        { s with tx_state := ir_repeat, line := Line.low, OCR1A := 18000, TCNT1 := 0 }) ∧
    (joystick_get_state pinc = 0 → s.joy_state ≠ 0 →
      TIMER1_COMPA_vect pinc s =
        { s with tx_state := ir_start, joy_state := 0, line := Line.low, OCR1A := 18000,
                 TCNT1 := 0 }) ∧
    (joystick_get_state pinc = 0 → s.joy_state = 0 → (mouse_get_state s).1 ≠ 0 →
      TIMER1_COMPA_vect pinc s =
        { s with mouse_x := 0, mouse_y := 0, mouse_buttons := 0,
                 mouse := (mouse_get_state s).2.1, tx_state := m_start, line := Line.low,
                 OCR1A := 2200, TCNT1 := 0 }) ∧
    (joystick_get_state pinc = 0 → s.joy_state = 0 → (mouse_get_state s).1 = 0 →
      TIMER1_COMPA_vect pinc s =
        { s with mouse_x := 0, mouse_y := 0, mouse_buttons := 0,
                 mouse := (mouse_get_state s).2.1, tx_state := tx_idle, CS11 := false }) ∧
    ((TIMER1_COMPA_vect pinc s).tx_state = ir_repeat ↔
      (joystick_get_state pinc ≠ 0 ∧ joystick_get_state pinc = s.joy_state)) ∧
    ((TIMER1_COMPA_vect pinc s).tx_state = m_start ↔
      (joystick_get_state pinc = 0 ∧ s.joy_state = 0 ∧
        (s.mouse_buttons ≠ 0 ∨ s.mouse_x % 256 ≠ 0 ∨ s.mouse_y % 256 ≠ 0))) := by
  have hrv := (mouse_get_state_rv s).1
  refine ⟨?_, ?_, ?_, ?_, ?_, ?_, ?_⟩
  · intro hn hne
    rw [tick_idle_ir pinc s hidle (Or.inl hn), if_neg hne]
  · intro hn heq
    rw [tick_idle_ir pinc s hidle (Or.inl hn), if_pos heq, heq]
  · intro hn hj
    have hne : joystick_get_state pinc ≠ s.joy_state := by rw [hn]; exact fun h => hj h.symm
    rw [tick_idle_ir pinc s hidle (Or.inr hj), if_neg hne, hn]
  · intro hn hj hd
    rw [tick_idle_mouse pinc s hidle hn hj, if_pos hd]
  · intro hn hj hd
    rw [tick_idle_mouse pinc s hidle hn hj, if_neg (not_not.mpr hd)]
    cases s
    simp_all
  · by_cases hor : joystick_get_state pinc ≠ 0 ∨ s.joy_state ≠ 0
    · rw [tick_idle_ir pinc s hidle hor]
      by_cases heq : joystick_get_state pinc = s.joy_state
      · have hn : joystick_get_state pinc ≠ 0 := by
          rcases hor with h | h
          · exact h
          · rw [heq]; exact h
        rw [if_pos heq]
        exact ⟨fun _ => ⟨hn, heq⟩, fun _ => rfl⟩
      · simp [heq, ir_start, ir_repeat]
    · have hn : joystick_get_state pinc = 0 := by
        by_contra h; exact hor (Or.inl h)
      have hj : s.joy_state = 0 := by
        by_contra h; exact hor (Or.inr h)
      rw [tick_idle_mouse pinc s hidle hn hj]
      split_ifs <;> simp [hn, hidle, tx_idle, m_start, ir_repeat]
  · by_cases hor : joystick_get_state pinc ≠ 0 ∨ s.joy_state ≠ 0
    · rw [tick_idle_ir pinc s hidle hor]
      have : ¬ (joystick_get_state pinc = 0 ∧ s.joy_state = 0 ∧
          (s.mouse_buttons ≠ 0 ∨ s.mouse_x % 256 ≠ 0 ∨ s.mouse_y % 256 ≠ 0)) := by
        rintro ⟨h1, h2, _⟩
        rcases hor with h | h
        · exact h h1
        · exact h h2
      constructor
      · intro h
        split_ifs at h <;> simp [ir_start, ir_repeat, m_start] at h
      · intro h
        exact absurd h this
    · have hn : joystick_get_state pinc = 0 := by
        by_contra h; exact hor (Or.inl h)
      have hj : s.joy_state = 0 := by
        by_contra h; exact hor (Or.inr h)
      rw [tick_idle_mouse pinc s hidle hn hj]
      by_cases hd : (mouse_get_state s).1 ≠ 0
      · rw [if_pos hd]
        exact ⟨fun _ => ⟨hn, hj, hrv.mp hd⟩, fun _ => rfl⟩
      · rw [if_neg hd]
        constructor
        · intro h
          simp [hidle, tx_idle, m_start] at h
        · rintro ⟨_, _, h⟩
          exact absurd (hrv.mpr h) hd

/-- C7 on the state left by `cdtv_init` with no input active (`PINC = 0xFF`):
nothing to send, the timer is switched off. -/
theorem C7_idle_branch_witness :
    cdtv_init.tx_state = tx_idle ∧
    TIMER1_COMPA_vect 0xFF { cdtv_init with CS11 := true }
      = { cdtv_init with mouse := 0x70000 } :=
  ⟨rfl, ((C7_idle_branch 0xFF { cdtv_init with CS11 := true } rfl).2.2.2.2.1
    (by decide) rfl (by decide)).trans (by decide)⟩

/-- C8: starting idle with stored sample 0, an idle run that samples a non-zero
`e` starts a full frame; after that frame has run to completion the state is idle
with `e` stored, and the next idle run starts a repeat frame if it samples `e`
again, a full frame carrying `e'` if it samples another non-zero `e'`, and if it
samples zero one full frame with all 12 first pauses 800 ticks and all 12 second
pauses 2400 ticks, after which an idle run that still samples zero starts no
infra-red frame: it drains the accumulator and either starts a motion frame or
switches the timer off. -/
theorem C8_repeat_detection (p : Nat) (ps : List Nat) (s : State)
    (hidle : s.tx_state = tx_idle) (hj : s.joy_state = 0)
    (he : joystick_get_state p ≠ 0) (hlen : ps.length = 51) :
    (TIMER1_COMPA_vect p s).tx_state = ir_start ∧
    (ticks (p :: ps) s).tx_state = tx_idle ∧
    (ticks (p :: ps) s).joy_state = joystick_get_state p ∧
    (∀ q, joystick_get_state q = joystick_get_state p →
      (TIMER1_COMPA_vect q (ticks (p :: ps) s)).tx_state = ir_repeat) ∧
    (∀ q qs, joystick_get_state q ≠ 0 → joystick_get_state q ≠ joystick_get_state p →
      qs.length = 51 →
      (TIMER1_COMPA_vect q (ticks (p :: ps) s)).tx_state = ir_start ∧
      firstGroup (segments (q :: qs) (ticks (p :: ps) s)) = some (joystick_get_state q) ∧
      secondGroup (segments (q :: qs) (ticks (p :: ps) s))
        = some (0xFFF ^^^ joystick_get_state q)) ∧
    (∀ q qs, joystick_get_state q = 0 → qs.length = 51 →
      (TIMER1_COMPA_vect q (ticks (p :: ps) s)).tx_state = ir_start ∧
      (∀ i, i < 12 → slotPause (segments (q :: qs) (ticks (p :: ps) s)) i = 800) ∧
      (∀ i, 12 ≤ i → i < 24 → slotPause (segments (q :: qs) (ticks (p :: ps) s)) i = 2400) ∧
      (ticks (q :: qs) (ticks (p :: ps) s)).tx_state = tx_idle ∧
      (ticks (q :: qs) (ticks (p :: ps) s)).joy_state = 0 ∧
      (∀ r, joystick_get_state r = 0 →
        (TIMER1_COMPA_vect r (ticks (q :: qs) (ticks (p :: ps) s))).tx_state ≠ ir_start ∧
        (TIMER1_COMPA_vect r (ticks (q :: qs) (ticks (p :: ps) s))).tx_state ≠ ir_repeat ∧
        (TIMER1_COMPA_vect r (ticks (q :: qs) (ticks (p :: ps) s))).mouse_x = 0 ∧
        (TIMER1_COMPA_vect r (ticks (q :: qs) (ticks (p :: ps) s))).mouse_y = 0 ∧
        (TIMER1_COMPA_vect r (ticks (q :: qs) (ticks (p :: ps) s))).mouse_buttons = 0 ∧
        (((TIMER1_COMPA_vect r (ticks (q :: qs) (ticks (p :: ps) s))).tx_state = m_start ∧
          (TIMER1_COMPA_vect r (ticks (q :: qs) (ticks (p :: ps) s))).line = Line.low ∧
          (TIMER1_COMPA_vect r (ticks (q :: qs) (ticks (p :: ps) s))).OCR1A = 2200) ∨
         ((TIMER1_COMPA_vect r (ticks (q :: qs) (ticks (p :: ps) s))).tx_state = tx_idle ∧
          (TIMER1_COMPA_vect r (ticks (q :: qs) (ticks (p :: ps) s))).CS11 = false)))) := by
  have hne : joystick_get_state p ≠ s.joy_state := by rw [hj]; exact he
  obtain ⟨_, hfin⟩ := run_full_frame p ps s hidle hne hlen
  have h1idle : (ticks (p :: ps) s).tx_state = tx_idle := by rw [hfin]
  have h1joy : (ticks (p :: ps) s).joy_state = joystick_get_state p := by rw [hfin]
  refine ⟨?_, h1idle, h1joy, ?_, ?_, ?_⟩
  · rw [tick_idle_ir p s hidle (Or.inl he), if_neg hne]
  · intro q hq
    rw [tick_idle_ir q _ h1idle (Or.inl (hq ▸ he)), h1joy, if_pos hq]
  · intro q qs hq0 hqe hqlen
    have hne2 : joystick_get_state q ≠ (ticks (p :: ps) s).joy_state := by rw [h1joy]; exact hqe
    obtain ⟨hseg2, _⟩ := run_full_frame q qs _ h1idle hne2 hqlen
    rcases joystick_get_state_zero_or q with h0 | ⟨hm, hc⟩
    · exact absurd h0 hq0
    · refine ⟨?_, ?_, ?_⟩
      · rw [tick_idle_ir q _ h1idle (Or.inl hq0), if_neg hne2]
      · rw [hseg2, firstGroup_fullFrame, hm]
      · rw [hseg2, secondGroup_fullFrame, hc]
  · intro q qs hq0 hqlen
    have hne2 : joystick_get_state q ≠ (ticks (p :: ps) s).joy_state := by
      rw [h1joy, hq0]; exact fun h => he h.symm
    have hor : joystick_get_state q ≠ 0 ∨ (ticks (p :: ps) s).joy_state ≠ 0 := by
      right; rw [h1joy]; exact he
    obtain ⟨hseg2, hfin2⟩ := run_full_frame q qs _ h1idle hne2 hqlen
    have h2idle : (ticks (q :: qs) (ticks (p :: ps) s)).tx_state = tx_idle := by rw [hfin2]
    have h2joy : (ticks (q :: qs) (ticks (p :: ps) s)).joy_state = 0 := by rw [hfin2]; exact hq0
    refine ⟨?_, ?_, ?_, h2idle, h2joy, ?_⟩
    · rw [tick_idle_ir q _ h1idle hor, if_neg hne2]
    · rw [hseg2, hq0]; exact slotPause_zero_frame.1
    · rw [hseg2, hq0]; exact slotPause_zero_frame.2
    · intro r hr
      rw [tick_idle_mouse r _ h2idle hr h2joy]
      split_ifs
      · refine ⟨?_, ?_, rfl, rfl, rfl, Or.inl ⟨rfl, rfl, rfl⟩⟩
        · show m_start ≠ ir_start
          decide
        · show m_start ≠ ir_repeat
          decide
      · refine ⟨?_, ?_, rfl, rfl, rfl, Or.inr ⟨h2idle, rfl⟩⟩
        · show (ticks (q :: qs) (ticks (p :: ps) s)).tx_state ≠ ir_start
          rw [h2idle]; decide
        · show (ticks (q :: qs) (ticks (p :: ps) s)).tx_state ≠ ir_repeat
          rw [h2idle]; decide

/-- C8 from the state left by `cdtv_init`, first sample `0x814` (`PINC = 0xFA`). -/
theorem C8_repeat_detection_witness :
    cdtv_init.tx_state = tx_idle ∧ joystick_get_state 0xFA ≠ 0 ∧
    (TIMER1_COMPA_vect 0xFA (ticks (0xFA :: List.replicate 51 0) cdtv_init)).tx_state
      = ir_repeat :=
  ⟨rfl, by decide,
    (C8_repeat_detection 0xFA (List.replicate 51 0) cdtv_init rfl rfl (by decide)
      (by simp)).2.2.2.1 0xFA rfl⟩

/-- C9: for a 3-bit button mask `b` and counters `x`, `y`, `mouse_get_state`
writes the frame `((b ^ 0b111) << 16) | (((-x) mod 256) << 8) | ((-y) mod 256)`:
the button field (bits 16 and up) is the 3-bit complement `7 - b`, the next byte
is the low byte of `-x` and the low byte is the low byte of `-y`.  After
`mouse_set_state(0b011, 5, -3)` on an accumulator with empty mask the button
field is `0b011 ^ 0b111` and the bytes are the low bytes of the negated counters
`x - (x >> 1) + 5` and `y - (y >> 1) - 3`; from the initial state the frame is
`0x4FB03`. -/
theorem C9_drain_frame (s : State) (hb : s.mouse_buttons < 8) :
    (mouse_get_state s).2.1
      = ((s.mouse_buttons ^^^ 0b111) <<< 16) ||| (((-s.mouse_x) % 256).toNat <<< 8)
          ||| ((-s.mouse_y) % 256).toNat ∧
    (mouse_get_state s).2.1 >>> 16 = 7 - s.mouse_buttons ∧
    ((mouse_get_state s).2.1 >>> 8) % 256 = ((-s.mouse_x) % 256).toNat ∧
    (mouse_get_state s).2.1 % 256 = ((-s.mouse_y) % 256).toNat ∧
    (s.mouse_buttons = 0 →
      (mouse_get_state (mouse_set_state 0b011 5 (-3) s)).2.1 >>> 16 = 0b011 ^^^ 0b111 ∧
      ((mouse_get_state (mouse_set_state 0b011 5 (-3) s)).2.1 >>> 8) % 256
        = ((-(s.mouse_x - (s.mouse_x >>> 1) + 5)) % 256).toNat ∧
      (mouse_get_state (mouse_set_state 0b011 5 (-3) s)).2.1 % 256
        = ((-(s.mouse_y - (s.mouse_y >>> 1) + (-3))) % 256).toNat) ∧
    (mouse_get_state (mouse_set_state 0b011 5 (-3) cdtv_init)).2.1 = 0x4FB03 := by
  have fields : ∀ t : State, t.mouse_buttons < 8 →
      (mouse_get_state t).2.1 >>> 16 = 7 - t.mouse_buttons ∧
      ((mouse_get_state t).2.1 >>> 8) % 256 = u8 (-t.mouse_x) ∧
      (mouse_get_state t).2.1 % 256 = u8 (-t.mouse_y) := by
    intro t ht
    have hx := u8_lt (-t.mouse_x)
    have hy := u8_lt (-t.mouse_y)
    rw [mouse_get_state_frame t (by omega), xor_seven _ ht, Nat.shiftRight_eq_div_pow,
      Nat.shiftRight_eq_div_pow]
    omega
  obtain ⟨f1, f2, f3⟩ := fields s hb
  refine ⟨?_, f1, f2, f3, ?_, by decide⟩
  · rw [mouse_get_state_frame s (by omega)]
    exact (pack_eq _ _ _ (u8_lt _) (u8_lt _)).symm
  · intro h0
    have hm : (mouse_set_state 0b011 5 (-3) s).mouse_buttons = 3 := by
      show (s.mouse_buttons ||| 0b011) % 256 = 3
      rw [h0]; rfl
    obtain ⟨g1, g2, g3⟩ := fields (mouse_set_state 0b011 5 (-3) s) (by rw [hm]; decide)
    rw [g1, g2, g3, hm]
    refine ⟨rfl, ?_, ?_⟩
    · exact u8_neg_i16 _
    · exact u8_neg_i16 _

/-- C9 on the accumulator left by `mouse_set_state(0b011, 5, -3)` after
`cdtv_init`: button field `0b100`. -/
theorem C9_drain_frame_witness :
    (mouse_set_state 0b011 5 (-3) cdtv_init).mouse_buttons < 8 ∧
    (mouse_get_state (mouse_set_state 0b011 5 (-3) cdtv_init)).2.1 >>> 16
      = 7 - (mouse_set_state 0b011 5 (-3) cdtv_init).mouse_buttons :=
  ⟨by decide, (C9_drain_frame (mouse_set_state 0b011 5 (-3) cdtv_init) (by decide)).2.1⟩

/-- C10: the value returned by `mouse_get_state` is 0 or 1, and it is non-zero
exactly when the button mask is non-zero or the low byte of the horizontal
counter is non-zero or the low byte of the vertical counter is non-zero; the
test on the negated bytes, which the code performs, is equivalent. -/
theorem C10_has_data (s : State) :
    ((mouse_get_state s).1 ≠ 0 ↔
      (s.mouse_buttons ≠ 0 ∨ u8 s.mouse_x ≠ 0 ∨ u8 s.mouse_y ≠ 0)) ∧
    ((mouse_get_state s).1 ≠ 0 ↔
      (s.mouse_buttons ≠ 0 ∨ u8 (-s.mouse_x) ≠ 0 ∨ u8 (-s.mouse_y) ≠ 0)) ∧
    ((mouse_get_state s).1 = 0 ∨ (mouse_get_state s).1 = 1) := by
  have hx : u8 s.mouse_x ≠ 0 ↔ s.mouse_x % 256 ≠ 0 := by unfold u8; omega
  have hy : u8 s.mouse_y ≠ 0 ↔ s.mouse_y % 256 ≠ 0 := by unfold u8; omega
  have hnx : u8 (-s.mouse_x) ≠ 0 ↔ s.mouse_x % 256 ≠ 0 :=
    not_iff_not.mpr (u8_neg_eq_zero s.mouse_x)
  have hny : u8 (-s.mouse_y) ≠ 0 ↔ s.mouse_y % 256 ≠ 0 :=
    not_iff_not.mpr (u8_neg_eq_zero s.mouse_y)
  obtain ⟨h1, h2⟩ := mouse_get_state_rv s
  refine ⟨?_, ?_, h2⟩
  · rw [h1, hx, hy]
  · rw [h1, hnx, hny]

/-- C11: after `mouse_get_state` both counters and the button mask are zero, so a
second drain right after it returns 0 and writes a frame with button field
`0b111` and both motion bytes zero. -/
theorem C11_drain_resets (s : State) :
    (mouse_get_state s).2.2.mouse_x = 0 ∧
    (mouse_get_state s).2.2.mouse_y = 0 ∧
    (mouse_get_state s).2.2.mouse_buttons = 0 ∧
    (mouse_get_state (mouse_get_state s).2.2).1 = 0 ∧
    frameButtons (mouse_get_state (mouse_get_state s).2.2).2.1 = 0b111 ∧
    frameX (mouse_get_state (mouse_get_state s).2.2).2.1 = 0 ∧
    frameY (mouse_get_state (mouse_get_state s).2.2).2.1 = 0 ∧
    (mouse_get_state (mouse_get_state s).2.2).2.1 = 0x70000 := by
  have hf : (mouse_get_state (mouse_get_state s).2.2).2.1 = 0x70000 := by
    show ((((0 ^^^ 0x7) % 2 ^ 32) <<< 16) % 2 ^ 32) ||| ((u8 (-0) % 65536) <<< 8) ||| u8 (-0)
      = 0x70000
    decide
  have hr : (mouse_get_state (mouse_get_state s).2.2).1 = 0 := by
    show (if (0 : Nat) ≠ 0 ∨ u8 (-0) ≠ 0 ∨ u8 (-0) ≠ 0 then 1 else 0) = 0
    decide
  refine ⟨rfl, rfl, rfl, hr, ?_, ?_, ?_, hf⟩
  · rw [hf]; decide
  · rw [hf]; decide
  · rw [hf]; decide

/-- C12: on an empty accumulator, for a 3-bit mask `b` and signed 8-bit `dx`,
`dy`, one `mouse_set_state(b, dx, dy)` followed by `mouse_get_state` returns 1
if `b`, `dx` or `dy` is non-zero and 0 otherwise. -/
theorem C12_post_then_drain (s : State) (b : Nat) (dx dy : Int)
    (hx0 : s.mouse_x = 0) (hy0 : s.mouse_y = 0) (hb0 : s.mouse_buttons = 0)
    (hb : b < 8) (hdx : -128 ≤ dx ∧ dx ≤ 127) (hdy : -128 ≤ dy ∧ dy ≤ 127) :
    (mouse_get_state (mouse_set_state b dx dy s)).1
      = if b ≠ 0 ∨ dx ≠ 0 ∨ dy ≠ 0 then 1 else 0 := by
  have hrv := mouse_get_state_rv (mouse_set_state b dx dy s)
  have hmx : (mouse_set_state b dx dy s).mouse_x = dx := by
    show i16 (s.mouse_x - (s.mouse_x >>> 1) + dx) = dx
    rw [hx0]
    have h0 : (0 : Int) >>> 1 = 0 := by decide
    rw [h0]
    unfold i16
    omega
  have hmy : (mouse_set_state b dx dy s).mouse_y = dy := by
    show i16 (s.mouse_y - (s.mouse_y >>> 1) + dy) = dy
    rw [hy0]
    have h0 : (0 : Int) >>> 1 = 0 := by decide
    rw [h0]
    unfold i16
    omega
  have hmb : (mouse_set_state b dx dy s).mouse_buttons = b := by
    show (s.mouse_buttons ||| b) % 256 = b
    rw [hb0, Nat.zero_or]
    omega
  rw [hmx, hmy, hmb] at hrv
  have hxz : dx % 256 ≠ 0 ↔ dx ≠ 0 := by omega
  have hyz : dy % 256 ≠ 0 ↔ dy ≠ 0 := by omega
  rw [hxz, hyz] at hrv
  by_cases h : b ≠ 0 ∨ dx ≠ 0 ∨ dy ≠ 0
  · rw [if_pos h]
    rcases hrv.2 with h0 | h1
    · exact absurd h0 (hrv.1.mpr h)
    · exact h1
  · rw [if_neg h]
    by_contra hne
    exact h (hrv.1.mp hne)

/-- C12 on the state left by `cdtv_init` with `(b, dx, dy) = (0b011, 5, -3)`. -/
theorem C12_post_then_drain_witness :
    cdtv_init.mouse_x = 0 ∧ (3 : Nat) < 8 ∧
    (mouse_get_state (mouse_set_state 3 5 (-3) cdtv_init)).1
      = if (3 : Nat) ≠ 0 ∨ (5 : Int) ≠ 0 ∨ (-3 : Int) ≠ 0 then 1 else 0 :=
  ⟨rfl, by decide,
    C12_post_then_drain cdtv_init 3 5 (-3) rfl rfl rfl (by decide) (by decide) (by decide)⟩

/-- C13, as stated, fails: after `mouse_set_state(0, 5, 0)` on the initial state
the horizontal counter is 5, and one further `mouse_set_state(0, 0, 0)` changes
it to 3. -/
theorem C13_post_zero_counterexample :
    (mouse_set_state 0 5 0 cdtv_init).mouse_x = 5 ∧
    (postZero 1 (mouse_set_state 0 5 0 cdtv_init)).mouse_x = 3 ∧
    (postZero 1 (mouse_set_state 0 5 0 cdtv_init)).mouse_x
      ≠ (mouse_set_state 0 5 0 cdtv_init).mouse_x := by
  decide

/-- C13, amended: when each counter is 0 or 1 (in particular on the empty
accumulator) `n` calls `mouse_set_state(0, 0, 0)` leave both counters and the
mask unchanged, for every `n`; in every state one such call leaves the mask
unchanged and replaces a counter `x` by `x - (x >> 1)`, which equals `x` only
for `x = 0` and `x = 1`. -/
theorem C13_post_zero_fixed_points (s : State) (n : Nat)
    (hx : -32768 ≤ s.mouse_x ∧ s.mouse_x ≤ 32767)
    (hy : -32768 ≤ s.mouse_y ∧ s.mouse_y ≤ 32767) (hb : s.mouse_buttons < 256) :
    ((s.mouse_x = 0 ∨ s.mouse_x = 1) → (s.mouse_y = 0 ∨ s.mouse_y = 1) →
      (postZero n s).mouse_x = s.mouse_x ∧ (postZero n s).mouse_y = s.mouse_y ∧
      (postZero n s).mouse_buttons = s.mouse_buttons) ∧
    (mouse_set_state 0 0 0 s).mouse_buttons = s.mouse_buttons ∧
    (mouse_set_state 0 0 0 s).mouse_x = s.mouse_x - (s.mouse_x >>> 1) ∧
    (mouse_set_state 0 0 0 s).mouse_y = s.mouse_y - (s.mouse_y >>> 1) ∧
    ((mouse_set_state 0 0 0 s).mouse_x = s.mouse_x ↔ (s.mouse_x = 0 ∨ s.mouse_x = 1)) ∧
    ((mouse_set_state 0 0 0 s).mouse_y = s.mouse_y ↔ (s.mouse_y = 0 ∨ s.mouse_y = 1)) := by
  refine ⟨fun h0 h1 => postZero_fixed n s h0 h1 hb, ?_, (leak_fixed _ hx).1, (leak_fixed _ hy).1,
    (leak_fixed _ hx).2, (leak_fixed _ hy).2⟩
  show (s.mouse_buttons ||| 0) % 256 = s.mouse_buttons
  rw [Nat.or_zero]
  exact Nat.mod_eq_of_lt hb

/-- C13 amended, on the state left by `cdtv_init` with 7 calls. -/
theorem C13_post_zero_fixed_points_witness :
    cdtv_init.mouse_buttons < 256 ∧
    (postZero 7 cdtv_init).mouse_x = cdtv_init.mouse_x ∧
    (postZero 7 cdtv_init).mouse_y = cdtv_init.mouse_y ∧
    (postZero 7 cdtv_init).mouse_buttons = cdtv_init.mouse_buttons :=
  ⟨by decide,
    (C13_post_zero_fixed_points cdtv_init 7 (by decide) (by decide) (by decide)).1
      (Or.inl rfl) (Or.inl rfl)⟩

/-- C14, as stated, fails: after `mouse_set_state(0b100, 0, 0)` on the initial
state, a call whose button argument is a 3-bit mask, `mouse_get_state` writes
the frame `0x30000`, whose bit 18 is 0. -/
theorem C14_reserved_bit_counterexample :
    AccOp.maskBelow 3 (AccOp.post 0b100 0 0) ∧
    (mouse_get_state (accRun [AccOp.post 0b100 0 0] cdtv_init)).2.1 = 0x30000 ∧
    (mouse_get_state (accRun [AccOp.post 0b100 0 0] cdtv_init)).2.1.testBit 18 = false := by
  refine ⟨?_, ?_, ?_⟩
  · show 4 < 2 ^ 3
    decide
  · decide
  · decide

/-- C14, amended: after any sequence of posts with 3-bit button arguments and
drains from the initial state, the frame written by `mouse_get_state` is below
`2^19`, and its bit 18 is the complement of bit 2 of the accumulated mask; when
every button argument is a 2-bit mask (bits 0 and 1) bit 18 is 1. -/
theorem C14_frame_19_bits (ops : List AccOp) (h3 : ∀ o ∈ ops, AccOp.maskBelow 3 o) :
    (mouse_get_state (accRun ops cdtv_init)).2.1 < 2 ^ 19 ∧
    (mouse_get_state (accRun ops cdtv_init)).2.1.testBit 18
      = !(accRun ops cdtv_init).mouse_buttons.testBit 2 ∧
    ((∀ o ∈ ops, AccOp.maskBelow 2 o) →
      (mouse_get_state (accRun ops cdtv_init)).2.1.testBit 18 = true) := by
  have hb := accRun_mask 3 (by decide) ops cdtv_init (by decide) h3
  obtain ⟨f1, f2, f3⟩ := frame_bit18 (accRun ops cdtv_init) hb
  refine ⟨f1, f2, fun h2 => f3 ?_⟩
  exact accRun_mask 2 (by decide) ops cdtv_init (by decide) h2

/-- C14 amended, for the posts `(0b011, 5, -3)` and `(0b001, 1, 0)`. -/
theorem C14_frame_19_bits_witness :
    (∀ o ∈ [AccOp.post 0b011 5 (-3), AccOp.post 0b001 1 0], AccOp.maskBelow 3 o) ∧
    (mouse_get_state (accRun [AccOp.post 0b011 5 (-3), AccOp.post 0b001 1 0] cdtv_init)).2.1
      < 2 ^ 19 :=
  ⟨by simp [AccOp.maskBelow],
    (C14_frame_19_bits [AccOp.post 0b011 5 (-3), AccOp.post 0b001 1 0]
      (by simp [AccOp.maskBelow])).1⟩

/-- C15, as stated, fails: in the full frame for the sample `0x814` (port value
`0xFA`) bit 11 of the 12-bit complement is 0, for which the claim gives a pause
of 2400 ticks in slot 12, but the pause programmed is 800 ticks. -/
theorem C15_second_group_counterexample :
    joystick_get_state 0xFA = 0x814 ∧
    (0xFFF ^^^ 0x814).testBit 11 = false ∧
    slotPause (segments (0xFA :: List.replicate 51 0) cdtv_init) 12 = 800 ∧
    slotPause (segments (0xFA :: List.replicate 51 0) cdtv_init) 12
      ≠ (if (0xFFF ^^^ 0x814).testBit 11 then 800 else 2400) := by
  refine ⟨by decide, by decide, ?_, ?_⟩
  · rw [(run_full_frame 0xFA (List.replicate 51 0) cdtv_init rfl (by decide) (by simp)).1]
    rfl
  · rw [(run_full_frame 0xFA (List.replicate 51 0) cdtv_init rfl (by decide) (by simp)).1]
    decide

/-- C15, amended: in a full frame carrying the stored value `v`, the pause of
slot `i < 12` is 2400 ticks if bit `11 - i` of `v` is 1 and 800 ticks otherwise;
the pause of slot `i`, `12 ≤ i < 24`, is 800 ticks if bit `23 - i` of `v` is 1 and
2400 ticks otherwise, that is 2400 ticks if that bit of the 12-bit complement
of `v` is 1 and 800 ticks otherwise. -/
theorem C15_pause_encoding (pinc : Nat) (ps : List Nat) (s : State)
    (hidle : s.tx_state = tx_idle) (hdiff : joystick_get_state pinc ≠ s.joy_state)
    (hlen : ps.length = 51) :
    (ticks (pinc :: ps) s).joy_state = joystick_get_state pinc ∧
    (∀ i, i < 12 →
      slotPause (segments (pinc :: ps) s) i
        = if (joystick_get_state pinc).testBit (11 - i) then 2400 else 800) ∧
    (∀ i, 12 ≤ i → i < 24 →
      slotPause (segments (pinc :: ps) s) i
        = if (joystick_get_state pinc).testBit (23 - i) then 800 else 2400) ∧
    (∀ i, 12 ≤ i → i < 24 →
      slotPause (segments (pinc :: ps) s) i
        = if (0xFFF ^^^ joystick_get_state pinc).testBit (23 - i) then 2400 else 800) := by
  obtain ⟨hseg, hfin⟩ := run_full_frame pinc ps s hidle hdiff hlen
  obtain ⟨h1, h2⟩ := slotPause_fullFrame (joystick_get_state pinc)
  refine ⟨by rw [hfin], ?_, ?_, ?_⟩
  · intro i hi
    rw [hseg]; exact h1 i hi
  · intro i h12 h24
    rw [hseg]; exact h2 i h12 h24
  · intro i h12 h24
    rw [hseg, h2 i h12 h24, testBit_compl12 _ _ (by omega)]
    cases (joystick_get_state pinc).testBit (23 - i) <;> rfl

/-- C15 amended, at the port value `0xFA` from the state left by `cdtv_init`. -/
theorem C15_pause_encoding_witness :
    cdtv_init.tx_state = tx_idle ∧ joystick_get_state 0xFA ≠ cdtv_init.joy_state ∧
    slotPause (segments (0xFA :: List.replicate 51 0) cdtv_init) 12
      = if (joystick_get_state 0xFA).testBit (23 - 12) then 800 else 2400 :=
  ⟨rfl, by decide,
    (C15_pause_encoding 0xFA (List.replicate 51 0) cdtv_init rfl (by decide)
      (by simp)).2.2.1 12 (by decide) (by decide)⟩

/-- C17: every run of the timer routine either is the idle run that switches the
timer off, which leaves `OCR1A` as it was, or stores in `OCR1A` a value between
176 and 48500, hence non-zero and below `2^16`; the final hold of a repeat frame,
97000 ticks, which is not below `2^16`, is programmed as two segments of 48500
ticks with the line released, which together make up the 120000 ticks of the
frame. -/
theorem C17_compare_range (pinc : Nat) (s : State) :
    (((TIMER1_COMPA_vect pinc s).OCR1A = s.OCR1A ∧ s.tx_state = tx_idle ∧
        (TIMER1_COMPA_vect pinc s).CS11 = false ∧
        (TIMER1_COMPA_vect pinc s).tx_state = tx_idle) ∨
      (176 ≤ (TIMER1_COMPA_vect pinc s).OCR1A ∧ (TIMER1_COMPA_vect pinc s).OCR1A ≤ 48500 ∧
        (TIMER1_COMPA_vect pinc s).OCR1A ≠ 0 ∧ (TIMER1_COMPA_vect pinc s).OCR1A < 2 ^ 16)) ∧
    (∀ ps : List Nat, s.tx_state = tx_idle → joystick_get_state pinc ≠ 0 →
      joystick_get_state pinc = s.joy_state → ps.length = 4 →
      (segments (pinc :: ps) s).drop 3 = [(Line.released, 48500), (Line.released, 48500)] ∧
      total ((segments (pinc :: ps) s).drop 3) = 2 * 48500 ∧
      ¬ (2 * 48500 < 2 ^ 16) ∧
      total ((segments (pinc :: ps) s).take 3) + total ((segments (pinc :: ps) s).drop 3)
        = 120000) := by
  constructor
  · rcases tick_OCR1A pinc s with h | ⟨h1, h2⟩
    · exact Or.inl h
    · exact Or.inr ⟨h1, h2, by omega, by omega⟩
  · intro ps hidle hnz heq hlen
    obtain ⟨hseg, _, _⟩ := run_repeat_frame pinc ps s hidle hnz heq hlen
    rw [hseg]
    exact ⟨rfl, rfl, by decide, rfl⟩

/-- C17 for the repeat frame at the port value `0xFA` with `0x814` stored. -/
theorem C17_compare_range_witness :
    joystick_get_state 0xFA ≠ 0 ∧
    total ((segments (0xFA :: List.replicate 4 0xFF)
      { cdtv_init with joy_state := 0x814 }).drop 3) = 2 * 48500 :=
  ⟨by decide,
    ((C17_compare_range 0xFA { cdtv_init with joy_state := 0x814 }).2
      (List.replicate 4 0xFF) rfl (by decide) (by decide) (by simp)).2.1⟩

/-- C18: after any sequence of `mouse_set_state` calls with arguments in the
range of their C types and of drains, from the initial state, both counters lie
in `[-255, 254]`; a further update with a signed 8-bit delta therefore stays in
the `int16_t` range at every stage (the halved value in `[-127, 127]`, the sum in
`[-255, 254]`) and is stored without wrap; a counter has a zero low byte only if
it is zero, so `mouse_get_state` returns 0 only if both counters are zero. -/
theorem C18_integrator_bounded (ops : List AccOp) (hv : ∀ o ∈ ops, AccOp.valid o) :
    (-255 ≤ (accRun ops cdtv_init).mouse_x ∧ (accRun ops cdtv_init).mouse_x ≤ 254) ∧
    (-255 ≤ (accRun ops cdtv_init).mouse_y ∧ (accRun ops cdtv_init).mouse_y ≤ 254) ∧
    (∀ (b : Nat) (dx dy : Int), -128 ≤ dx ∧ dx ≤ 127 → -128 ≤ dy ∧ dy ≤ 127 →
      (mouse_set_state b dx dy (accRun ops cdtv_init)).mouse_x
        = (accRun ops cdtv_init).mouse_x - ((accRun ops cdtv_init).mouse_x >>> 1) + dx ∧
      (mouse_set_state b dx dy (accRun ops cdtv_init)).mouse_y
        = (accRun ops cdtv_init).mouse_y - ((accRun ops cdtv_init).mouse_y >>> 1) + dy ∧
      (-32768 ≤ (accRun ops cdtv_init).mouse_x - ((accRun ops cdtv_init).mouse_x >>> 1) ∧
        (accRun ops cdtv_init).mouse_x - ((accRun ops cdtv_init).mouse_x >>> 1) ≤ 32767) ∧
      (-32768 ≤ (accRun ops cdtv_init).mouse_y - ((accRun ops cdtv_init).mouse_y >>> 1) ∧
        (accRun ops cdtv_init).mouse_y - ((accRun ops cdtv_init).mouse_y >>> 1) ≤ 32767)) ∧
    (u8 (accRun ops cdtv_init).mouse_x = 0 ↔ (accRun ops cdtv_init).mouse_x = 0) ∧
    (u8 (accRun ops cdtv_init).mouse_y = 0 ↔ (accRun ops cdtv_init).mouse_y = 0) ∧
    ((mouse_get_state (accRun ops cdtv_init)).1 = 0 →
      (accRun ops cdtv_init).mouse_x = 0 ∧ (accRun ops cdtv_init).mouse_y = 0) := by
  obtain ⟨hx, hy⟩ := accRun_bounds ops cdtv_init ⟨by decide, by decide⟩
    ⟨by decide, by decide⟩ hv
  generalize accRun ops cdtv_init = t at hx hy ⊢
  have hzx : u8 t.mouse_x = 0 ↔ t.mouse_x = 0 := by unfold u8; omega
  have hzy : u8 t.mouse_y = 0 ↔ t.mouse_y = 0 := by unfold u8; omega
  refine ⟨hx, hy, ?_, hzx, hzy, ?_⟩
  · intro b dx dy hdx hdy
    obtain ⟨⟨a1, a2⟩, _, ex⟩ := leak_step t.mouse_x dx hx hdx
    obtain ⟨⟨b1, b2⟩, _, ey⟩ := leak_step t.mouse_y dy hy hdy
    exact ⟨ex, ey, ⟨by omega, by omega⟩, ⟨by omega, by omega⟩⟩
  · intro h0
    have hrv := (mouse_get_state_rv t).1
    have hnot : ¬ (t.mouse_buttons ≠ 0 ∨ t.mouse_x % 256 ≠ 0 ∨ t.mouse_y % 256 ≠ 0) :=
      fun h => (hrv.mpr h) h0
    constructor
    · by_contra hne
      exact hnot (Or.inr (Or.inl (by omega)))
    · by_contra hne
      exact hnot (Or.inr (Or.inr (by omega)))

/-- C18 for two posts at the extreme deltas: the counters are 191 and -192. -/
theorem C18_integrator_bounded_witness :
    (∀ o ∈ [AccOp.post 1 127 (-128), AccOp.post 0 127 (-128)], AccOp.valid o) ∧
    (-255 ≤ (accRun [AccOp.post 1 127 (-128), AccOp.post 0 127 (-128)] cdtv_init).mouse_x ∧
      (accRun [AccOp.post 1 127 (-128), AccOp.post 0 127 (-128)] cdtv_init).mouse_x ≤ 254) :=
  ⟨by simp [AccOp.valid],
    (C18_integrator_bounded [AccOp.post 1 127 (-128), AccOp.post 0 127 (-128)]
      (by simp [AccOp.valid])).1⟩

/-- C20: the horizontal byte written by `mouse_get_state` is the low byte of the
negated counter; read as a signed 8-bit value it equals the negated counter
whenever the counter lies in `[-127, 128]`, but not always: two posts of
`dx = 127` from the initial state give the counter 191 and the byte `0x41`, read
as 65, and one post of `dx = -128` gives the counter -128 and the byte `0x80`,
read as -128. -/
theorem C20_signed_byte (s : State) (hb : s.mouse_buttons < 256)
    (hx : -127 ≤ s.mouse_x ∧ s.mouse_x ≤ 128) :
    frameX (mouse_get_state s).2.1 = u8 (-s.mouse_x) ∧
    s8 (frameX (mouse_get_state s).2.1) = -s.mouse_x ∧
    ((accRun [AccOp.post 0 127 0, AccOp.post 0 127 0] cdtv_init).mouse_x = 191 ∧
      frameX (mouse_get_state
        (accRun [AccOp.post 0 127 0, AccOp.post 0 127 0] cdtv_init)).2.1 = 0x41 ∧
      s8 0x41 = 65) ∧
    ((accRun [AccOp.post 0 (-128) 0] cdtv_init).mouse_x = -128 ∧
      frameX (mouse_get_state (accRun [AccOp.post 0 (-128) 0] cdtv_init)).2.1 = 0x80 ∧
      s8 0x80 = -128) ∧
    (∃ ops : List AccOp, (∀ o ∈ ops, AccOp.valid o) ∧
      s8 (frameX (mouse_get_state (accRun ops cdtv_init)).2.1)
        ≠ -(accRun ops cdtv_init).mouse_x) := by
  have hf := (frame_fields s hb).2.1
  refine ⟨hf, ?_, ⟨by decide, by decide, by decide⟩, ⟨by decide, by decide, by decide⟩, ?_⟩
  · rw [hf]; exact s8_u8_neg _ hx
  · refine ⟨[AccOp.post 0 127 0, AccOp.post 0 127 0], by simp [AccOp.valid], by decide⟩

/-- C20 after one post of `dx = 5`: counter 5, byte `0xFB`, read as -5. -/
theorem C20_signed_byte_witness :
    (accRun [AccOp.post 0 5 0] cdtv_init).mouse_buttons < 256 ∧
    s8 (frameX (mouse_get_state (accRun [AccOp.post 0 5 0] cdtv_init)).2.1)
      = -(accRun [AccOp.post 0 5 0] cdtv_init).mouse_x :=
  ⟨by decide,
    (C20_signed_byte (accRun [AccOp.post 0 5 0] cdtv_init) (by decide) (by decide)).2.1⟩

/-- C16: in a state reached from `cdtv_init` with a frame in flight, a run of
the timer routine leaves a line level, a compare value and a next transmit state
that depend only on the transmit state, `joy_state` and the captured frame
`mouse` (not on `PINC`, nor on the accumulator); it leaves `joy_state`, `mouse`
and the accumulator unchanged; `mouse_set_state` leaves the transmit state,
`joy_state`, `mouse`, the line and the timer registers unchanged; so two event
sequences with the same number of timer runs, within the frame, program the same
segments, and the accumulator after such a sequence is what its posts alone
produce. -/
theorem C16_frame_isolated (es es' : List Event)
    (hne : (exec es cdtv_init).tx_state ≠ tx_idle)
    (ht : (exec es' cdtv_init).tx_state = (exec es cdtv_init).tx_state)
    (hj : (exec es' cdtv_init).joy_state = (exec es cdtv_init).joy_state)
    (hm : (exec es' cdtv_init).mouse = (exec es cdtv_init).mouse) :
    (∀ p p' : Nat,
      (TIMER1_COMPA_vect p' (exec es' cdtv_init)).line
        = (TIMER1_COMPA_vect p (exec es cdtv_init)).line ∧
      (TIMER1_COMPA_vect p' (exec es' cdtv_init)).OCR1A
        = (TIMER1_COMPA_vect p (exec es cdtv_init)).OCR1A ∧
      (TIMER1_COMPA_vect p' (exec es' cdtv_init)).tx_state
        = (TIMER1_COMPA_vect p (exec es cdtv_init)).tx_state) ∧
    (∀ p : Nat,
      (TIMER1_COMPA_vect p (exec es cdtv_init)).joy_state = (exec es cdtv_init).joy_state ∧
      (TIMER1_COMPA_vect p (exec es cdtv_init)).mouse = (exec es cdtv_init).mouse ∧
      (TIMER1_COMPA_vect p (exec es cdtv_init)).mouse_x = (exec es cdtv_init).mouse_x ∧
      (TIMER1_COMPA_vect p (exec es cdtv_init)).mouse_y = (exec es cdtv_init).mouse_y ∧
      (TIMER1_COMPA_vect p (exec es cdtv_init)).mouse_buttons
        = (exec es cdtv_init).mouse_buttons) ∧
    (∀ (b : Nat) (x y : Int) (t : State),
      (mouse_set_state b x y t).tx_state = t.tx_state ∧
      (mouse_set_state b x y t).joy_state = t.joy_state ∧
      (mouse_set_state b x y t).mouse = t.mouse ∧
      (mouse_set_state b x y t).line = t.line ∧
      (mouse_set_state b x y t).OCR1A = t.OCR1A ∧
      (mouse_set_state b x y t).TCNT1 = t.TCNT1) ∧
    (∀ fs fs' : List Event, tickCount fs = tickCount fs' →
      tickCount fs ≤ frameLen (exec es cdtv_init).tx_state →
      wave fs (exec es cdtv_init) = wave fs' (exec es' cdtv_init)) ∧
    (∀ fs : List Event, tickCount fs ≤ frameLen (exec es cdtv_init).tx_state →
      (exec fs (exec es cdtv_init)).mouse_x = (skipTicks fs (exec es cdtv_init)).mouse_x ∧
      (exec fs (exec es cdtv_init)).mouse_y = (skipTicks fs (exec es cdtv_init)).mouse_y ∧
      (exec fs (exec es cdtv_init)).mouse_buttons
        = (skipTicks fs (exec es cdtv_init)).mouse_buttons) := by
  have inv := line_inv_exec es cdtv_init line_inv_init
  have inv' := line_inv_exec es' cdtv_init line_inv_init
  generalize exec es cdtv_init = s at hne ht hj hm inv ⊢
  generalize exec es' cdtv_init = s' at ht hj hm inv' ⊢
  have hl : s'.tx_state = ir_repeat_stop2 → s'.line = s.line := by
    intro h55
    rw [inv' (Or.inr h55), inv (Or.inr (ht ▸ h55))]
  have hne' : s'.tx_state ≠ tx_idle := by rw [ht]; exact hne
  refine ⟨?_, ?_, ?_, ?_, ?_⟩
  · intro p p'
    obtain ⟨a1, _, _, a4, a5, _⟩ := tick_frame_step p' p s' s ht hj hm hl hne'
    exact ⟨a4, a5, a1⟩
  · intro p
    rw [tick_nonidle_eq p s hne]
    exact ⟨rfl, rfl, rfl, rfl, rfl⟩
  · intro b x y t
    exact ⟨rfl, rfl, rfl, rfl, rfl, rfl⟩
  · intro fs fs' hcount hlen
    have w1 := (wave_frame fs s s rfl rfl rfl (fun _ => rfl) hlen).1
    have w2 := (wave_frame fs' s' s ht hj hm hl (by rw [ht, ← hcount]; exact hlen)).1
    rw [w1, w2, hcount]
  · intro fs hlen
    exact acc_frame fs s s rfl rfl rfl hlen

/-- C16 for a motion frame started after `mouse_set_state(0b011, 5, -3)`, the
second run having one more post behind it. -/
theorem C16_frame_isolated_witness :
    (exec [Event.post 3 5 (-3), Event.tick 0xFF] cdtv_init).tx_state ≠ tx_idle ∧
    wave [Event.tick 0, Event.tick 0] (exec [Event.post 3 5 (-3), Event.tick 0xFF] cdtv_init)
      = wave [Event.tick 0xFA, Event.post 1 7 7, Event.tick 0x00]
          (exec [Event.post 3 5 (-3), Event.tick 0xFF, Event.post 0 1 1] cdtv_init) :=
  ⟨by decide,
    (C16_frame_isolated [Event.post 3 5 (-3), Event.tick 0xFF]
      [Event.post 3 5 (-3), Event.tick 0xFF, Event.post 0 1 1]
      (by decide) (by decide) (by decide) (by decide)).2.2.2.1
      [Event.tick 0, Event.tick 0] [Event.tick 0xFA, Event.post 1 7 7, Event.tick 0x00]
      (by decide) (by decide)⟩

/-- C19: in every state reached from `cdtv_init` by runs of the timer routine
(with any `PINC` values), calls of `mouse_set_state` and pin-change interrupts,
the line is released whenever the transmit state is idle; in particular it is
released after an idle run that switches the timer off. -/
theorem C19_idle_line_released (es : List Event) :
    (cdtv_init.tx_state = tx_idle ∧ cdtv_init.line = Line.released) ∧
    ((exec es cdtv_init).tx_state = tx_idle → (exec es cdtv_init).line = Line.released) ∧
    (∀ p : Nat, (exec es cdtv_init).tx_state = tx_idle → joystick_get_state p = 0 →
      (exec es cdtv_init).joy_state = 0 → (mouse_get_state (exec es cdtv_init)).1 = 0 →
      (TIMER1_COMPA_vect p (exec es cdtv_init)).CS11 = false ∧
      (TIMER1_COMPA_vect p (exec es cdtv_init)).tx_state = tx_idle ∧
      (TIMER1_COMPA_vect p (exec es cdtv_init)).line = Line.released) := by
  have inv := line_inv_exec es cdtv_init line_inv_init
  refine ⟨⟨rfl, rfl⟩, fun h => inv (Or.inl h), ?_⟩
  intro p hidle hp hj hd
  rw [tick_idle_mouse p _ hidle hp hj, if_neg (not_not.mpr hd)]
  exact ⟨rfl, hidle, inv (Or.inl hidle)⟩

/-- C19 after a post and a pin-change interrupt: the transmit state is still idle
and the line released. -/
theorem C19_idle_line_released_witness :
    (exec [Event.post 3 5 (-3), Event.pinchange] cdtv_init).tx_state = tx_idle ∧
    (exec [Event.post 3 5 (-3), Event.pinchange] cdtv_init).line = Line.released :=
  ⟨by decide,
    (C19_idle_line_released [Event.post 3 5 (-3), Event.pinchange]).2.1 (by decide)⟩

end Cdtv
